import Mathlib

/-!
# transcribe: the otter.ai login and upload pipeline

A shallow embedding of `pkg/otterapi/otter.go` and of the part of `otter.go`
(`main`) that drives it.

* Go functions returning `(T, error)` become functions into `Outcome T`:
  either `ret val err` (the Go `return val, err`) or `panic e`.
* The network is a `World`: `http.DefaultClient.Do` is a function of the
  request and of a state of any type, threaded through every call.  A `Net`
  pairs that state with the list of requests sent so far.
* What the standard library reads out of bytes is part of the value read:
  a response carries the cookies `resp.Cookies()` returns, and a `Body`
  carries, next to its text, what `encoding/json` and `encoding/xml` make of
  that text.  The decoding of these into the program's structs is modelled
  here, member by member and token by token.
-/

set_option autoImplicit false

namespace otterapi

/-! ## Values of the Go runtime and standard library -/

/-- An `http.Cookie`, as far as the program looks at it. -/
structure Cookie where
  Name : String
  Value : String
deriving DecidableEq, Repr

/-- A Go `error` value. -/
inductive GoError where
  /-- An error the standard library makes on its own (transport, reading,
  URL parsing, JSON or XML scanning); `pkg` names the package. -/
  | lib (pkg msg : String)
  /-- The value of `errors.New(msg)`. -/
  | errorsNew (msg : String)
  /-- The value of `errors.New(fmt.Sprintf("Unable to find session id %s", cookies))`;
  the cookie slice is kept as data instead of being rendered. -/
  | noSessionId (cookies : List Cookie)
  /-- A `*json.UnmarshalTypeError`: the JSON `value` does not fit the Go
  field reached by the JSON path `field`. -/
  | jsonType (value field : String)
  /-- An `xml.UnmarshalError`. -/
  | xmlUnmarshal (msg : String)
deriving DecidableEq, Repr

/-- What a call of a Go function `func f(...) (T, error)` comes to. -/
inductive Outcome (α : Type) where
  /-- The function executed `return val, err`. -/
  | ret (val : α) (err : Option GoError)
  /-- The function, or one it called, executed `panic(e)`. -/
  | panic (e : GoError)
deriving DecidableEq, Repr

/-- A finite `float64`, held as the shortest decimal that reads back to it:
`(-1)^neg * 0.d₁d₂…dₙ * 10^dp`, the digits `d₁…dₙ` without leading or
trailing zero (none at all for zero).  This is the `decimalSlice` that
`strconv.FormatFloat(f, 'g', -1, 64)` prints from. -/
structure Float64 where
  neg : Bool
  digits : String
  dp : Int
deriving DecidableEq, Repr

/-- The zero value of `float64`. -/
def Float64.zero : Float64 := { neg := false, digits := "", dp := 0 }

/-- The exponent of `%e`: at least two digits. -/
def fmtExp (n : Nat) : String :=
  if n < 10 then String.mk ['0', Char.ofNat (48 + n)]
  else if n < 100 then String.mk [Char.ofNat (48 + n / 10), Char.ofNat (48 + n % 10)]
  else String.mk [Char.ofNat (48 + n / 100), Char.ofNat (48 + n / 10 % 10), Char.ofNat (48 + n % 10)]

/-- The `%e` form of `strconv`, with all the digits of the shortest decimal. -/
def Float64.fmtE (f : Float64) : String :=
  let ds := f.digits.data
  let exp : Int := if ds.isEmpty then 0 else f.dp - 1
  (if f.neg then "-" else "") ++ String.mk [ds.headD '0']
    ++ (if (ds.drop 1).isEmpty then "" else "." ++ String.mk (ds.drop 1))
    ++ "e" ++ (if exp < 0 then "-" else "+") ++ fmtExp exp.natAbs

/-- The `%f` form of `strconv`, with all the digits of the shortest decimal. -/
def Float64.fmtF (f : Float64) : String :=
  let ds := f.digits.data
  let nd := ds.length
  let whole : List Char :=
    if 0 < f.dp then ds.take f.dp.toNat ++ List.replicate (f.dp.toNat - nd) '0' else ['0']
  let prec : Nat := ((nd : Int) - f.dp).toNat
  let frac : List Char := (List.range prec).map fun i =>
    let j : Int := f.dp + i
    if 0 ≤ j ∧ j < nd then ds.getD j.toNat '0' else '0'
  (if f.neg then "-" else "") ++ String.mk whole
    ++ (if 0 < prec then "." ++ String.mk frac else "")

/-- The text of `fmt.Sprint(f)` for a `float64`: the verb `%v` is `%g` with the
shortest precision, which takes the `%e` form when the decimal exponent is
below `-4` or at least `6`, and the `%f` form otherwise. -/
def Float64.Sprint (f : Float64) : String :=
  let exp : Int := f.dp - 1
  if exp < -4 ∨ 6 ≤ exp then f.fmtE else f.fmtF

/-- A JSON value as `encoding/json` scans it.  An object keeps its members
in the order of the text, repeated keys included; strings and keys are
unquoted.  A number keeps its literal and, beside it, what
`strconv.ParseFloat(lit, 64)` makes of it: `none` when it is out of range. -/
inductive Json where
  | null
  | bool (b : Bool)
  | num (lit : String) (val : Option Float64)
  | str (s : String)
  | arr (items : List Json)
  | obj (members : List (String × Json))

/-- The word `encoding/json` uses for a value in an `UnmarshalTypeError`. -/
def Json.kind : Json → String
  | .null => "null"
  | .bool _ => "bool"
  | .num _ _ => "number"
  | .str _ => "string"
  | .arr _ => "array"
  | .obj _ => "object"

/-- A token of `(*xml.Decoder).Token`.  Attributes are left out: the structs
of this program have no attribute field. -/
inductive XmlToken where
  | StartElement (space name : String)
  | EndElement
  | CharData (text : String)
  | Comment
  | ProcInst
  | Directive
deriving DecidableEq, Repr

/-- The run of `(*xml.Decoder).Token` over some bytes: the tokens it hands
out, then the error it ends on (`io.EOF` at the end of the input, or the
error of the first malformed place). -/
structure XmlStream where
  tokens : List XmlToken
  stop : GoError
deriving DecidableEq, Repr

/-- The error `json.Unmarshal` and `(*xml.Decoder).Token` end on at the end
of an empty input. -/
def errEOF (pkg : String) : GoError := .lib pkg "unexpected end of input"

/-- The bytes of a response body: their text, and what the two decoders of
the standard library make of them.  `json` is the value `encoding/json` scans,
or the `*json.SyntaxError` of its validity check. -/
structure Body where
  text : String
  json : Except GoError Json
  xml : XmlStream

/-- The empty string, as a body. -/
def Body.empty : Body :=
  { text := "", json := .error (errEOF "encoding/json"), xml := { tokens := [], stop := errEOF "io" } }

/-- The bytes `[]byte(s)` of a Go string. -/
def bytesOf (s : String) : List UInt8 := s.data.flatMap String.utf8EncodeChar

/-- One part of a `multipart/form-data` body, as `multipart.Writer` was asked
to write it. -/
structure Part where
  /-- The `name` of the `Content-Disposition: form-data` header. -/
  Name : String
  /-- The `filename` of that header, for a part made by `CreateFormFile`. -/
  FileName : Option String
  /-- The `Content-Type` header, for a part made by `CreateFormFile`. -/
  ContentType : Option String
  Content : List UInt8
deriving DecidableEq, Repr

/-- A `multipart.Writer` over a `bytes.Buffer`: the boundary, the parts
written so far, and whether the closing boundary was written. -/
structure Form where
  Boundary : String
  Parts : List Part
  Closed : Bool
deriving DecidableEq, Repr

/-- The effect of `(*multipart.Writer).WriteField`. -/
def Form.WriteField (w : Form) (fieldname value : String) : Form :=
  { w with Parts := w.Parts ++
      [{ Name := fieldname, FileName := none, ContentType := none, Content := bytesOf value }] }

/-- The effect of `(*multipart.Writer).CreateFormFile` followed by an `io.Copy` of `data`
into the part. -/
def Form.CreateFormFile (w : Form) (fieldname filename : String) (data : List UInt8) : Form :=
  { w with Parts := w.Parts ++
      [{ Name := fieldname, FileName := some filename,
         ContentType := some "application/octet-stream", Content := data }] }

/-- The effect of `(*multipart.Writer).Close`. -/
def Form.Close (w : Form) : Form := { w with Closed := true }

/-- The body of a request. -/
inductive ReqBody where
  | none
  | text (s : String)
  | form (f : Form)
deriving DecidableEq, Repr

/-- An `http.Request`, as the program builds it. -/
structure Request where
  Method : String
  URL : String
  Cookies : List Cookie := []
  Header : List (String × String) := []
  BasicAuth : Option (String × String) := none
  Body : ReqBody := .none
deriving DecidableEq, Repr

/-- An `http.Response`: the status code, the cookies `resp.Cookies()` returns,
and what `ioutil.ReadAll(resp.Body)` returns. -/
structure Response where
  StatusCode : Nat
  Cookies : List Cookie
  Body : Except GoError Body

/-- An `*os.File` open for reading: its name, and what reading all of it gives. -/
structure File where
  Name : String
  Data : Except GoError (List UInt8)

/-- The world outside the program. -/
structure World (σ : Type) where
  /-- The function `http.DefaultClient.Do`. -/
  Do : Request → σ → Except GoError Response × σ
  /-- The error of `http.NewRequest` on a URL, for a URL that comes from the
  network; the literal URLs of the program, with an escaped query, always
  pass. -/
  NewRequestErr : String → Option GoError
  /-- The random boundary of `multipart.NewWriter`. -/
  Boundary : σ → String × σ

/-- The state of the world and the requests handed to `Do` so far. -/
structure Net (σ : Type) where
  state : σ
  sent : List Request

/-- A call of `http.DefaultClient.Do(req)`. -/
def send {σ : Type} (w : World σ) (req : Request) (n : Net σ) : Except GoError Response × Net σ :=
  ((w.Do req n.state).1, { state := (w.Do req n.state).2, sent := n.sent ++ [req] })

/-- The upper-case hexadecimal digit of `n < 16`. -/
def hexDigit (n : Nat) : Char := "0123456789ABCDEF".data.getD n '0'

/-- The bytes `url.QueryEscape` leaves as they are. -/
def unreserved (b : UInt8) : Bool :=
  (48 ≤ b.toNat && b.toNat ≤ 57) || (65 ≤ b.toNat && b.toNat ≤ 90)
    || (97 ≤ b.toNat && b.toNat ≤ 122)
    || b.toNat == 45 || b.toNat == 95 || b.toNat == 46 || b.toNat == 126

/-- The function `url.QueryEscape`. -/
def QueryEscape (s : String) : String :=
  String.mk ((bytesOf s).flatMap fun b =>
    if unreserved b then [Char.ofNat b.toNat]
    else if b.toNat == 32 then ['+']
    else ['%', hexDigit (b.toNat / 16), hexDigit (b.toNat % 16)])

/-! ## `encoding/json` into the structs of the program -/

/-- The case folding under which `encoding/json` matches a key to a field
name, as far as it decides equality with a name made of ASCII characters:
ASCII letters fold to upper case, and the two other letters whose fold is
ASCII, U+017F and U+212A, fold to `S` and `K`. -/
def foldRune (c : Char) : Char :=
  if 97 ≤ c.toNat ∧ c.toNat ≤ 122 then Char.ofNat (c.toNat - 32)
  else if c.toNat = 0x17F then 'S'
  else if c.toNat = 0x212A then 'K'
  else c

/-- The folded form of a key or field name. -/
def foldName (s : String) : String := String.mk (s.data.map foldRune)

/-- The field a key of a JSON object goes to: the one whose name is the key
exactly, and failing that the first one whose name is the key up to case. -/
def lookupField {F : Type} (fields : List F) (tag : F → String) (key : String) : Option F :=
  match fields.find? (fun f => tag f == key) with
  | some f => some f
  | none => fields.find? (fun f => foldName (tag f) == foldName key)

/-- The decoder keeps the first error it saves (`d.saveError`). -/
def saveError (saved err : Option GoError) : Option GoError :=
  match saved with
  | some e => some e
  | none => err

/-- The decoding of a JSON value into a field of kind `string`, whose value so far is `cur`. -/
def storeString (field : String) (cur : String) (v : Json) : String × Option GoError :=
  match v with
  | .str s => (s, none)
  | .null => (cur, none)
  | other => (cur, some (.jsonType other.kind field))

/-- The decoding of a JSON value into a field of kind `float64`, whose value so far is `cur`. -/
def storeFloat64 (field : String) (cur : Float64) (v : Json) : Float64 × Option GoError :=
  match v with
  | .num _ (some f) => (f, none)
  | .num lit none => (cur, some (.jsonType ("number " ++ lit) field))
  | .null => (cur, none)
  | other => (cur, some (.jsonType other.kind field))

/-- The loop of `(*decodeState).object` over the members of a JSON object, in their
order, into a struct: `member` decodes one member and gives the error it saves, if any. -/
def decodeObject {S : Type} (member : S → String → Json → S × Option GoError) :
    List (String × Json) → S × Option GoError → S × Option GoError
  | [], st => st
  | (key, v) :: rest, st =>
    let r := member st.1 key v
    decodeObject member rest (r.1, saveError st.2 r.2)

/-- The fields of `speechUploadParams.Data`, in the order of the declaration. -/
inductive DataField where
  | AMZAlgorithm | AMZSignature | FormAction | Key | AMZDate | Policy
  | AMZCredential | SuccessActionStatus | ACL
deriving DecidableEq, Repr

/-- The `json:"..."` tag of a field. -/
def DataField.tag : DataField → String
  | .AMZAlgorithm => "x-amz-algorithm"
  | .AMZSignature => "x-amz-signature"
  | .FormAction => "form_action"
  | .Key => "key"
  | .AMZDate => "x-amz-date"
  | .Policy => "policy"
  | .AMZCredential => "x-amz-credential"
  | .SuccessActionStatus => "success_action_status"
  | .ACL => "acl"

/-- All the fields of `speechUploadParams.Data`. -/
def DataField.all : List DataField :=
  [.AMZAlgorithm, .AMZSignature, .FormAction, .Key, .AMZDate, .Policy,
   .AMZCredential, .SuccessActionStatus, .ACL]

/-- The anonymous struct `speechUploadParams.Data`. -/
structure speechUploadData where
  AMZAlgorithm : String := ""
  AMZSignature : String := ""
  FormAction : String := ""
  Key : String := ""
  AMZDate : String := ""
  Policy : String := ""
  AMZCredential : String := ""
  SuccessActionStatus : Float64 := Float64.zero
  ACL : String := ""
deriving DecidableEq, Repr

/-- The struct `speechUploadParams`. -/
structure speechUploadParams where
  Status : String := ""
  Data : speechUploadData := {}
deriving DecidableEq, Repr

/-- The decoding of one member of the `data` object into the struct. -/
def speechUploadData.decodeMember (d : speechUploadData) (key : String) (v : Json) :
    speechUploadData × Option GoError :=
  match lookupField DataField.all DataField.tag key with
  | none => (d, none)
  | some .AMZAlgorithm =>
    let r := storeString "Data.x-amz-algorithm" d.AMZAlgorithm v
    ({ d with AMZAlgorithm := r.1 }, r.2)
  | some .AMZSignature =>
    let r := storeString "Data.x-amz-signature" d.AMZSignature v
    ({ d with AMZSignature := r.1 }, r.2)
  | some .FormAction =>
    let r := storeString "Data.form_action" d.FormAction v
    ({ d with FormAction := r.1 }, r.2)
  | some .Key =>
    let r := storeString "Data.key" d.Key v
    ({ d with Key := r.1 }, r.2)
  | some .AMZDate =>
    let r := storeString "Data.x-amz-date" d.AMZDate v
    ({ d with AMZDate := r.1 }, r.2)
  | some .Policy =>
    let r := storeString "Data.policy" d.Policy v
    ({ d with Policy := r.1 }, r.2)
  | some .AMZCredential =>
    let r := storeString "Data.x-amz-credential" d.AMZCredential v
    ({ d with AMZCredential := r.1 }, r.2)
  | some .SuccessActionStatus =>
    let r := storeFloat64 "Data.success_action_status" d.SuccessActionStatus v
    ({ d with SuccessActionStatus := r.1 }, r.2)
  | some .ACL =>
    let r := storeString "Data.acl" d.ACL v
    ({ d with ACL := r.1 }, r.2)

/-- The decoding of a JSON value into the field `Data`. -/
def speechUploadData.decodeValue (d : speechUploadData) (v : Json) :
    speechUploadData × Option GoError :=
  match v with
  | .obj members => decodeObject speechUploadData.decodeMember members (d, none)
  | .null => (d, none)
  | other => (d, some (.jsonType other.kind "Data"))

/-- The two fields of `speechUploadParams`: `Status` is tagged `status`, `Data` has no tag
and goes by its Go name. -/
inductive ParamsField where
  | Status | Data
deriving DecidableEq, Repr

/-- The name `encoding/json` knows a field of `speechUploadParams` by. -/
def ParamsField.tag : ParamsField → String
  | .Status => "status"
  | .Data => "Data"

/-- The decoding of one member of the top object into `speechUploadParams`. -/
def speechUploadParams.decodeMember (p : speechUploadParams) (key : String) (v : Json) :
    speechUploadParams × Option GoError :=
  match lookupField [ParamsField.Status, ParamsField.Data] ParamsField.tag key with
  | none => (p, none)
  | some .Status =>
    let r := storeString "status" p.Status v
    ({ p with Status := r.1 }, r.2)
  | some .Data =>
    let r := p.Data.decodeValue v
    ({ p with Data := r.1 }, r.2)

/-- The call `json.Unmarshal([]byte(body), &params)` on a zero `params`. -/
def speechUploadParams.Unmarshal (body : Body) : speechUploadParams × Option GoError :=
  match body.json with
  | .error err => ({}, some err)
  | .ok (.obj members) => decodeObject speechUploadParams.decodeMember members ({}, none)
  | .ok .null => ({}, none)
  | .ok other => ({}, some (.jsonType other.kind ""))

/-- The struct `notifyOtterResponse`. -/
structure notifyOtterResponse where
  Status : String := ""
  SpeechID : String := ""
  UploadID : Float64 := Float64.zero
  OtID : String := ""
deriving DecidableEq, Repr

/-- The fields of `notifyOtterResponse`, in the order of the declaration. -/
inductive NotifyField where
  | Status | SpeechID | UploadID | OtID
deriving DecidableEq, Repr

/-- The `json:"..."` tag of a field. -/
def NotifyField.tag : NotifyField → String
  | .Status => "status"
  | .SpeechID => "speech_id"
  | .UploadID => "upload_id"
  | .OtID => "otid"

/-- All the fields of `notifyOtterResponse`. -/
def NotifyField.all : List NotifyField := [.Status, .SpeechID, .UploadID, .OtID]

/-- The decoding of one member of the top object into `notifyOtterResponse`. -/
def notifyOtterResponse.decodeMember (r : notifyOtterResponse) (key : String) (v : Json) :
    notifyOtterResponse × Option GoError :=
  match lookupField NotifyField.all NotifyField.tag key with
  | none => (r, none)
  | some .Status =>
    let x := storeString "status" r.Status v
    ({ r with Status := x.1 }, x.2)
  | some .SpeechID =>
    let x := storeString "speech_id" r.SpeechID v
    ({ r with SpeechID := x.1 }, x.2)
  | some .UploadID =>
    let x := storeFloat64 "upload_id" r.UploadID v
    ({ r with UploadID := x.1 }, x.2)
  | some .OtID =>
    let x := storeString "otid" r.OtID v
    ({ r with OtID := x.1 }, x.2)

/-- The call `json.Unmarshal([]byte(body), &responseBody)` on a zero `responseBody`. -/
def notifyOtterResponse.Unmarshal (body : Body) : notifyOtterResponse × Option GoError :=
  match body.json with
  | .error err => ({}, some err)
  | .ok (.obj members) => decodeObject notifyOtterResponse.decodeMember members ({}, none)
  | .ok .null => ({}, none)
  | .ok other => ({}, some (.jsonType other.kind ""))

/-! ## `encoding/xml` into `speechUploadResponse` -/

/-- The struct `speechUploadResponse`; `XMLName` is the space and the local name of the root. -/
structure speechUploadResponse where
  XMLName : String × String := ("", "")
  Location : String := ""
  Bucket : String := ""
  Key : String := ""
  ETag : String := ""
deriving DecidableEq, Repr

/-- The element fields of `speechUploadResponse`, in the order of the declaration. -/
inductive XmlField where
  | Location | Bucket | Key | ETag
deriving DecidableEq, Repr

/-- The `xml:"..."` tag of a field. -/
def XmlField.tag : XmlField → String
  | .Location => "Location"
  | .Bucket => "Bucket"
  | .Key => "Key"
  | .ETag => "ETag"

/-- The field a child element of the root goes to: the first whose tag is the local name. -/
def XmlField.named (name : String) : Option XmlField :=
  [XmlField.Location, .Bucket, .Key, .ETag].find? (fun f => f.tag == name)

/-- The assignment `field = data` that ends the decoding of a child element. -/
def speechUploadResponse.set (r : speechUploadResponse) (f : XmlField) (data : String) :
    speechUploadResponse :=
  match f with
  | .Location => { r with Location := data }
  | .Bucket => { r with Bucket := data }
  | .Key => { r with Key := data }
  | .ETag => { r with ETag := data }

/-- Where the decoder stands between the start and the end of the root element. -/
inductive XmlMode where
  /-- In the loop of `unmarshal` over the children of the root. -/
  | root
  /-- In the loop of `unmarshal` over a child that goes to field `f`, with the character
  data gathered so far. -/
  | field (f : XmlField) (data : String)
  /-- In `d.Skip()`, `depth` elements deep; `back` tells the loop that called it. -/
  | skip (depth : Nat) (back : Option (XmlField × String))

/-- The decoder from the token after the start of the root on: the struct it has filled
when the tokens run out or the root ends, and whether the root ended. -/
def xmlWalk : XmlMode → speechUploadResponse → List XmlToken → speechUploadResponse × Bool
  | _, r, [] => (r, false)
  | .root, r, tok :: rest =>
    match tok with
    | .StartElement _ name =>
      match XmlField.named name with
      | some f => xmlWalk (.field f "") r rest
      | none => xmlWalk (.skip 0 none) r rest
    | .EndElement => (r, true)
    | _ => xmlWalk .root r rest
  | .field f data, r, tok :: rest =>
    match tok with
    | .StartElement _ _ => xmlWalk (.skip 0 (some (f, data))) r rest
    | .EndElement => xmlWalk .root (r.set f data) rest
    | .CharData text => xmlWalk (.field f (data ++ text)) r rest
    | _ => xmlWalk (.field f data) r rest
  | .skip depth back, r, tok :: rest =>
    match tok with
    | .StartElement _ _ => xmlWalk (.skip (depth + 1) back) r rest
    | .EndElement =>
      match depth, back with
      | 0, none => xmlWalk .root r rest
      | 0, some (f, data) => xmlWalk (.field f data) r rest
      | d + 1, _ => xmlWalk (.skip d back) r rest
    | _ => xmlWalk (.skip depth back) r rest

/-- The first start element of the tokens and the tokens after it. -/
def findStart : List XmlToken → Option ((String × String) × List XmlToken)
  | [] => none
  | .StartElement space name :: rest => some ((space, name), rest)
  | _ :: rest => findStart rest

/-- The call `xml.Unmarshal([]byte(body), &response)` on a zero `response`. -/
def speechUploadResponse.Unmarshal (body : Body) : speechUploadResponse × Option GoError :=
  match findStart body.xml.tokens with
  | none => ({}, some body.xml.stop)
  | some ((space, name), rest) =>
    if name ≠ "PostResponse" then
      ({}, some (.xmlUnmarshal ("expected element type <PostResponse> but have <" ++ name ++ ">")))
    else
      match xmlWalk .root { XMLName := (space, name) } rest with
      | (r, true) => (r, none)
      | (r, false) => (r, some body.xml.stop)

/-! ## `pkg/otterapi/otter.go` -/

section
variable {σ : Type}

/-- The request `getCSRFToken` builds. -/
def csrfRequest : Request :=
  { Method := "GET", URL := "https://otter.ai/forward/api/v1/login_csrf" }

/-- The request `Login` builds. -/
def loginRequest (username password csrfToken : String) : Request :=
  { Method := "POST"
    URL := "https://otter.ai/forward/api/v1/login?username=" ++ QueryEscape username
    Cookies := [{ Name := "csrftoken", Value := csrfToken }]
    Header := [("X-Csrftoken", csrfToken)]
    BasicAuth := some (username, password) }

/-- The request `getSpeechUploadParams` builds. -/
def paramsRequest (sessionId : String) : Request :=
  { Method := "GET", URL := "https://otter.ai/forward/api/v1/speech_upload_params"
    Cookies := [{ Name := "sessionid", Value := sessionId }] }

/-- The request `amazonBucketUpload` builds. -/
def bucketRequest (params : speechUploadParams) (boundary : String) (data : Form) : Request :=
  { Method := "POST", URL := params.Data.FormAction, Body := .form data
    Header := [("Content-Type", "multipart/form-data; boundary=" ++ boundary)] }

/-- The request `notifyOtter` builds. -/
def finishRequest (sessionId : String) (response : speechUploadResponse) (csrfToken : String) :
    Request :=
  { Method := "POST"
    URL := "https://otter.ai/forward/api/v1/finish_speech_upload?bucket="
      ++ QueryEscape response.Bucket ++ "&key=" ++ QueryEscape response.Key
      ++ "&language=en&country=US&userid=821301"
    Body := .text "\x7b\n\x7d"
    Cookies := [{ Name := "sessionid", Value := sessionId },
                { Name := "csrftoken", Value := csrfToken }]
    Header := [("X-Csrftoken", csrfToken)] }

/-- The function `getResponseBody`. -/
def getResponseBody (resp : Response) : Body × Option GoError :=
  match resp.Body with
  | .error err => (Body.empty, some err)
  | .ok body => (body, none)

/-- The function `getCSRFToken`. -/
def getCSRFToken (w : World σ) (n : Net σ) : Outcome String × Net σ :=
  match send w csrfRequest n with
  | (.error err, n1) => (.panic err, n1)
  | (.ok resp, n1) =>
    match resp.Cookies.find? (fun cookie => cookie.Name == "csrftoken") with
    | some cookie => (.ret cookie.Value none, n1)
    | none =>
      match getResponseBody resp with
      | (_, some err) => (.ret "" (some err), n1)
      | (body, none) => (.ret "" (some (.errorsNew ("Unable to find CSRF token " ++ body.text))), n1)

/-- The function `Login`. -/
def Login (w : World σ) (username password : String) (n : Net σ) : Outcome String × Net σ :=
  match getCSRFToken w n with
  | (.panic e, n1) => (.panic e, n1)
  | (.ret _ (some err), n1) => (.panic err, n1)
  | (.ret csrfToken none, n1) =>
    match send w (loginRequest username password csrfToken) n1 with
    | (.error err, n2) => (.panic err, n2)
    | (.ok resp, n2) =>
      match resp.Cookies.find? (fun cookie => cookie.Name == "sessionid") with
      | some cookie => (.ret cookie.Value none, n2)
      | none => (.ret "" (some (.noSessionId resp.Cookies)), n2)

/-- The function `parseSpeechUploadParams`. -/
def parseSpeechUploadParams (body : Body) : speechUploadParams × Option GoError :=
  match speechUploadParams.Unmarshal body with
  | (params, some err) => (params, some err)
  | (params, none) => (params, none)

/-- The function `getSpeechUploadParams`. -/
def getSpeechUploadParams (w : World σ) (sessionId : String) (n : Net σ) :
    Outcome speechUploadParams × Net σ :=
  match send w (paramsRequest sessionId) n with
  | (.error err, n1) => (.panic err, n1)
  | (.ok resp, n1) =>
    match getResponseBody resp with
    | (_, some err) => (.ret {} (some err), n1)
    | (body, none) =>
      match parseSpeechUploadParams body with
      | (_, some err) => (.ret {} (some err), n1)
      | (params, none) => (.ret params none, n1)

/-- The function `createSpeechFormData`; the value returned is the boundary and the
buffer the form was written to. -/
def createSpeechFormData (w : World σ) (audioFile : File) (params : speechUploadParams)
    (n : Net σ) : Outcome (String × Form) × Net σ :=
  let n1 : Net σ := { n with state := (w.Boundary n.state).2 }
  let b : Form := { Boundary := (w.Boundary n.state).1, Parts := [], Closed := false }
  let b := b.WriteField "x-amz-algorithm" params.Data.AMZAlgorithm
  let b := b.WriteField "x-amz-signature" params.Data.AMZSignature
  let b := b.WriteField "key" params.Data.Key
  let b := b.WriteField "x-amz-date" params.Data.AMZDate
  let b := b.WriteField "policy" params.Data.Policy
  let b := b.WriteField "success_action_status" params.Data.SuccessActionStatus.Sprint
  let b := b.WriteField "x-amz-credential" params.Data.AMZCredential
  let b := b.WriteField "acl" params.Data.ACL
  match audioFile.Data with
  | .error err => (.panic err, n1)
  | .ok data =>
    let b := b.CreateFormFile "file" audioFile.Name data
    let boundary := b.Boundary
    let b := b.Close
    (.ret (boundary, b) none, n1)

/-- The function `parseSpeechUploadResponse`. -/
def parseSpeechUploadResponse (body : Body) : speechUploadResponse × Option GoError :=
  match speechUploadResponse.Unmarshal body with
  | (response, some err) => (response, some err)
  | (response, none) => (response, none)

/-- The function `amazonBucketUpload`. -/
def amazonBucketUpload (w : World σ) (audioFile : File) (params : speechUploadParams)
    (n : Net σ) : Outcome speechUploadResponse × Net σ :=
  match createSpeechFormData w audioFile params n with
  | (.panic e, n1) => (.panic e, n1)
  | (.ret (boundary, data) _, n1) =>
    match w.NewRequestErr params.Data.FormAction with
    | some err => (.panic err, n1)
    | none =>
      match send w (bucketRequest params boundary data) n1 with
      | (.error err, n2) => (.panic err, n2)
      | (.ok resp, n2) =>
        match getResponseBody resp with
        | (_, some err) => (.ret {} (some err), n2)
        | (body, none) =>
          match parseSpeechUploadResponse body with
          | (_, some err) => (.ret {} (some err), n2)
          | (spchResponse, none) => (.ret spchResponse none, n2)

/-- The function `notifyOtter`. -/
def notifyOtter (w : World σ) (sessionId : String) (response : speechUploadResponse)
    (n : Net σ) : Outcome notifyOtterResponse × Net σ :=
  match getCSRFToken w n with
  | (.panic e, n1) => (.panic e, n1)
  | (.ret _ (some err), n1) => (.panic err, n1)
  | (.ret csrfToken none, n1) =>
    match send w (finishRequest sessionId response csrfToken) n1 with
    | (.error err, n2) => (.panic err, n2)
    | (.ok resp, n2) =>
      match getResponseBody resp with
      | (_, some err) => (.panic err, n2)
      | (body, none) =>
        match notifyOtterResponse.Unmarshal body with
        | (_, some err) => (.panic err, n2)
        | (responseBody, none) => (.ret responseBody none, n2)

/-- The function `UploadSpeech`. -/
def UploadSpeech (w : World σ) (sessionId : String) (audioFile : File) (n : Net σ) :
    Outcome String × Net σ :=
  match getSpeechUploadParams w sessionId n with
  | (.panic e, n1) => (.panic e, n1)
  | (.ret _ (some err), n1) => (.ret "" (some err), n1)
  | (.ret params none, n1) =>
    match amazonBucketUpload w audioFile params n1 with
    | (.panic e, n2) => (.panic e, n2)
    | (.ret _ (some err), n2) => (.ret "" (some err), n2)
    | (.ret response none, n2) =>
      match notifyOtter w sessionId response n2 with
      | (.panic e, n3) => (.panic e, n3)
      | (.ret _ (some err), n3) => (.ret "" (some err), n3)
      | (.ret responseBody none, n3) =>
        let transcriptUrl := "https://otter.ai/u/" ++ responseBody.OtID
        (.ret transcriptUrl none, n3)

end

end otterapi

/-! ## `otter.go`: the end of `main` -/

namespace transcribe

open otterapi

/-- The way the process ends. -/
inductive ProcessEnd where
  /-- The function `main` returned after printing the transcript URL. -/
  | printed (transcriptUrl : String)
  /-- The call `os.Exit(code)`. -/
  | exit (code : Nat)
  /-- A `panic(e)` that nothing recovers. -/
  | panic (e : GoError)
deriving DecidableEq, Repr

/-- The function `main` from the check of the credentials on.  What comes before and
between the calls into `otterapi` is given: the credentials of the config, the flag `-w`
and what `writeConfig` returns, the number of arguments left, and what `os.Open` returns
for the last of them. -/
def main {σ : Type} (w : World σ) (Username Password : String) (shouldWriteConfig : Bool)
    (writeConfig : Option GoError) (NArg : Nat) (osOpen : Except GoError File) (n : Net σ) :
    ProcessEnd × Net σ :=
  if Username == "" || Password == "" then (.exit 1, n)
  else
    match Login w Username Password n with
    | (.panic e, n1) => (.panic e, n1)
    | (.ret _ (some err), n1) => (.panic err, n1)
    | (.ret sessionID none, n1) =>
      match (if shouldWriteConfig then writeConfig else none) with
      | some err => (.panic err, n1)
      | none =>
        if NArg ≠ 1 then (.exit 1, n1)
        else
          match osOpen with
          | .error err => (.panic err, n1)
          | .ok file =>
            match UploadSpeech w sessionID file n1 with
            | (.panic e, n2) => (.panic e, n2)
            | (.ret _ (some err), n2) => (.panic err, n2)
            | (.ret transcriptUrl none, n2) => (.printed transcriptUrl, n2)

end transcribe

namespace otterapi

/-! ## Vocabulary of the statements -/

/-- The value of the last member of a JSON object whose key goes to field `f`. -/
def lastNamed {F : Type} [DecidableEq F] (fields : List F) (tag : F → String) (f : F) :
    List (String × Json) → Option Json
  | [] => none
  | (key, v) :: rest =>
    match lastNamed fields tag f rest with
    | some x => some x
    | none => if lookupField fields tag key = some f then some v else none

/-- The members of the `data` object of an envelope: those of every object held under a
key that goes to the field `Data`, in their order. -/
def dataMembers : List (String × Json) → List (String × Json)
  | [] => []
  | (key, v) :: rest =>
    match lookupField [ParamsField.Status, ParamsField.Data] ParamsField.tag key, v with
    | some .Data, .obj members => members ++ dataMembers rest
    | _, _ => dataMembers rest

/-- The text a field of `speechUploadParams.Data` holds; for the one numeric field, the
text `fmt.Sprint` prints. -/
def speechUploadData.text (d : speechUploadData) : DataField → String
  | .AMZAlgorithm => d.AMZAlgorithm
  | .AMZSignature => d.AMZSignature
  | .FormAction => d.FormAction
  | .Key => d.Key
  | .AMZDate => d.AMZDate
  | .Policy => d.Policy
  | .AMZCredential => d.AMZCredential
  | .SuccessActionStatus => d.SuccessActionStatus.Sprint
  | .ACL => d.ACL

/-- The text a JSON value gives a field when it fits the kind of the field: a string
itself, and for the numeric field the text `fmt.Sprint` prints for the number read. -/
def DataField.textOf : DataField → Json → Option String
  | .SuccessActionStatus, .num _ (some x) => some x.Sprint
  | .SuccessActionStatus, _ => none
  | _, .str s => some s
  | _, _ => none

/-- The text of a JSON value as the document has it: a string itself, a number by
its literal. -/
def Json.written : Json → Option String
  | .str s => some s
  | .num lit _ => some lit
  | _ => none

/-- A JSON value fits a field of kind `string`: it is a string or `null`. -/
def fitsString : Json → Bool
  | .str _ => true
  | .null => true
  | _ => false

/-- A JSON value fits a field of kind `float64`: it is a number in range or `null`. -/
def fitsFloat64 : Json → Bool
  | .num _ (some _) => true
  | .null => true
  | _ => false

/-- A JSON value fits a field of `speechUploadParams.Data`. -/
def DataField.fits : DataField → Json → Bool
  | .SuccessActionStatus, v => fitsFloat64 v
  | _, v => fitsString v

/-- A JSON value fits a field of `notifyOtterResponse`. -/
def NotifyField.fits : NotifyField → Json → Bool
  | .UploadID, v => fitsFloat64 v
  | _, v => fitsString v

/-- Every member of a `data` object that goes to a field fits it. -/
def dataFits (members : List (String × Json)) : Bool :=
  members.all fun kv =>
    match lookupField DataField.all DataField.tag kv.1 with
    | some f => f.fits kv.2
    | none => true

/-- A JSON value fits the field `Data`: it is `null` or an object whose members fit. -/
def fitsData : Json → Bool
  | .null => true
  | .obj members => dataFits members
  | _ => false

/-- A well-formed envelope `{status, data: {...}}`: every member of the top object
that goes to `Status` is a string or `null`, and every member that goes to `Data` is
`null` or an object whose members fit their fields.  Nothing is asked of what the
status says. -/
def envelopeFits (top : List (String × Json)) : Bool :=
  top.all fun kv =>
    match lookupField [ParamsField.Status, ParamsField.Data] ParamsField.tag kv.1 with
    | some .Status => fitsString kv.2
    | some .Data => fitsData kv.2
    | none => true

/-- Every member of a finalize record that goes to a field fits it. -/
def notifyFits (members : List (String × Json)) : Bool :=
  members.all fun kv =>
    match lookupField NotifyField.all NotifyField.tag kv.1 with
    | some f => f.fits kv.2
    | none => true

/-- The `float64` that holds the whole number `n`, for `n` of at most fifteen digits (every
such number is a `float64`, and its shortest decimal is its numeral without the zeros at
the end). -/
def Float64.ofNat (n : Nat) : Float64 :=
  if n = 0 then Float64.zero
  else
    { neg := false
      digits := String.mk ((Nat.toDigits 10 n).reverse.dropWhile (· == '0')).reverse
      dp := (Nat.toDigits 10 n).length }

/-- Whether the tokens hold the end of the element that is `depth` elements above the
place of reading: the end of the root, for a place `depth` elements inside the root. -/
def closes : Nat → List XmlToken → Bool
  | _, [] => false
  | depth, .StartElement _ _ :: rest => closes (depth + 1) rest
  | 0, .EndElement :: _ => true
  | depth + 1, .EndElement :: rest => closes depth rest
  | depth, _ :: rest => closes depth rest

/-- The number of elements open inside the root at a place of the decoder. -/
def XmlMode.depth : XmlMode → Nat
  | .root => 0
  | .field _ _ => 1
  | .skip depth none => depth + 1
  | .skip depth (some _) => depth + 2

/-- The value of a field of `notifyOtterResponse`: a string or a `float64`. -/
inductive FieldValue where
  | text (s : String)
  | number (x : Float64)
deriving DecidableEq, Repr

/-- The value a field of a `notifyOtterResponse` holds. -/
def notifyOtterResponse.value (r : notifyOtterResponse) : NotifyField → FieldValue
  | .Status => .text r.Status
  | .SpeechID => .text r.SpeechID
  | .UploadID => .number r.UploadID
  | .OtID => .text r.OtID

/-- The zero value of a field of `notifyOtterResponse`. -/
def NotifyField.zero : NotifyField → FieldValue
  | .UploadID => .number Float64.zero
  | _ => .text ""

/-- The value a JSON value gives a field of `notifyOtterResponse` when it is of the kind
of the field: a string for a string field, the `float64` read for the numeric field. -/
def NotifyField.valueOf : NotifyField → Json → Option FieldValue
  | .UploadID, .num _ (some x) => some (.number x)
  | .UploadID, _ => none
  | _, .str s => some (.text s)
  | _, _ => none

/-- The value a call returned, when it returned one without an error. -/
def Outcome.val? {α : Type} : Outcome α → Option α
  | .ret val none => some val
  | _ => none

/-- The names of the nine parts of the upload form. -/
def formNames : List String :=
  ["x-amz-algorithm", "x-amz-signature", "key", "x-amz-date", "policy",
   "success_action_status", "x-amz-credential", "acl", "file"]

/-- The content of the parts of a form that go by a name. -/
def Form.valuesOf (b : Form) (name : String) : List (List UInt8) :=
  (b.Parts.filter (fun p => p.Name == name)).map Part.Content

/-! ## A scripted world, and the scenarios of the specification -/

/-- A world that answers the requests it gets with the responses of a script, in their
order whatever the request, and fails once the script is used up. -/
def scripted : World (List (Except GoError Response)) :=
  { Do := fun _ script =>
      match script with
      | [] => (.error (.lib "net/http" "no more responses"), [])
      | r :: rest => (r, rest)
    NewRequestErr := fun _ => none
    Boundary := fun script => ("b0undary", script) }

/-- The start of a run against a script. -/
def start (script : List (Except GoError Response)) : Net (List (Except GoError Response)) :=
  { state := script, sent := [] }

/-- A body of plain text, not empty and without markup, that is not JSON. -/
def plainBody (text : String) : Body :=
  { text := text
    json := .error (.lib "encoding/json" "invalid character")
    xml := { tokens := [.CharData text], stop := errEOF "io" } }

/-- A body that is the JSON document `v`, written `text`. -/
def jsonBody (text : String) (v : Json) : Body :=
  { text := text, json := .ok v, xml := { tokens := [.CharData text], stop := errEOF "io" } }

/-- A body that is an XML document, written `text`, with the given tokens. -/
def xmlBody (text : String) (tokens : List XmlToken) : Body :=
  { text := text
    json := .error (.lib "encoding/json" "invalid character")
    xml := { tokens := tokens, stop := errEOF "io" } }

/-- The CSRF response of the scenario: cookie `csrftoken=abc123`. -/
def csrfResponse : Response :=
  { StatusCode := 200, Cookies := [{ Name := "csrftoken", Value := "abc123" }],
    Body := .ok Body.empty }

/-- The login response of the scenario: cookie `sessionid=sess456`. -/
def loginResponse : Response :=
  { StatusCode := 200, Cookies := [{ Name := "sessionid", Value := "sess456" }],
    Body := .ok Body.empty }

/-- The members of the `data` object of the upload-params scenario, with a value for each
of the nine fields. -/
def policyMembers : List (String × Json) :=
  [("x-amz-algorithm", .str "AWS4-HMAC-SHA256"),
   ("x-amz-signature", .str "0f1e"),
   ("form_action", .str "https://s3.example.com/bucket"),
   ("key", .str "k1"),
   ("x-amz-date", .str "20240101T000000Z"),
   ("policy", .str "eyJ9"),
   ("x-amz-credential", .str "AKIA/20240101/us-east-1/s3/aws4_request"),
   ("success_action_status", .num "201" (some { neg := false, digits := "201", dp := 3 })),
   ("acl", .str "private")]

/-- The top object of the upload-params scenario. -/
def policyEnvelope : List (String × Json) :=
  [("status", .str "ok"), ("data", .obj policyMembers)]

/-- The upload-params response of the scenario. -/
def paramsResponse : Response :=
  { StatusCode := 200, Cookies := [],
    Body := .ok (jsonBody
      ("\x7b\"status\":\"ok\",\"data\":\x7b\"x-amz-algorithm\":\"AWS4-HMAC-SHA256\","
        ++ "\"x-amz-signature\":\"0f1e\",\"form_action\":\"https://s3.example.com/bucket\","
        ++ "\"key\":\"k1\",\"x-amz-date\":\"20240101T000000Z\",\"policy\":\"eyJ9\","
        ++ "\"x-amz-credential\":\"AKIA/20240101/us-east-1/s3/aws4_request\","
        ++ "\"success_action_status\":201,\"acl\":\"private\"\x7d\x7d")
      (.obj policyEnvelope)) }

/-- The tokens of a `PostResponse` document with one child for each field and text in each. -/
def receiptTokens (location bucket key etag : String) : List XmlToken :=
  [.StartElement "" "PostResponse",
   .StartElement "" "Location", .CharData location, .EndElement,
   .StartElement "" "Bucket", .CharData bucket, .EndElement,
   .StartElement "" "Key", .CharData key, .EndElement,
   .StartElement "" "ETag", .CharData etag, .EndElement,
   .EndElement]

/-- An object-store response with the given status code and a well-formed receipt. -/
def bucketResponse (code : Nat) : Response :=
  { StatusCode := code, Cookies := [],
    Body := .ok (xmlBody
      ("<PostResponse><Location>loc</Location><Bucket>bkt</Bucket>"
        ++ "<Key>k1</Key><ETag>tag</ETag></PostResponse>")
      (receiptTokens "loc" "bkt" "k1" "tag")) }

/-- The finalize response of the scenario, `{"status":"ok","otid":"xyz"}`. -/
def finishResponse : Response :=
  { StatusCode := 200, Cookies := [],
    Body := .ok (jsonBody "\x7b\"status\":\"ok\",\"otid\":\"xyz\"\x7d"
      (.obj [("status", .str "ok"), ("otid", .str "xyz")])) }

/-- A finalize response without `otid`, `{"status":"ok"}`. -/
def finishWithoutOtid : Response :=
  { StatusCode := 200, Cookies := [],
    Body := .ok (jsonBody "\x7b\"status\":\"ok\"\x7d" (.obj [("status", .str "ok")])) }

/-- A finalize response whose body is not JSON. -/
def finishMalformed : Response :=
  { StatusCode := 502, Cookies := [], Body := .ok (plainBody "Bad Gateway") }

/-- An upload-params envelope whose `success_action_status` is `1000000`, a number
`float64` holds exactly and `fmt.Sprint` prints as `1e+06`. -/
def millionEnvelope : List (String × Json) :=
  [("status", .str "ok"),
   ("data", .obj [("key", .str "k1"),
                  ("success_action_status", .num "1000000" (some { neg := false, digits := "1", dp := 7 }))])]

/-- An upload-params envelope whose `success_action_status` is `9007199254740993`, a
number `float64` does not hold: the nearest `float64` is `9007199254740992`, which
`fmt.Sprint` prints as `9.007199254740992e+15`. -/
def inexactEnvelope : List (String × Json) :=
  [("status", .str "ok"),
   ("data", .obj [("key", .str "k1"),
                  ("success_action_status",
                    .num "9007199254740993"
                      (some { neg := false, digits := "9007199254740992", dp := 16 }))])]

/-- The upload-params response body with the envelope of the inexact number. -/
def inexactBody : Body :=
  jsonBody
    ("\x7b\"status\":\"ok\",\"data\":\x7b\"key\":\"k1\","
      ++ "\"success_action_status\":9007199254740993\x7d\x7d")
    (.obj inexactEnvelope)

/-- The upload-params response body with the envelope of the million. -/
def millionBody : Body :=
  jsonBody
    ("\x7b\"status\":\"ok\",\"data\":\x7b\"key\":\"k1\",\"success_action_status\":1000000\x7d\x7d")
    (.obj millionEnvelope)

/-- An upload-params envelope whose status is the number `5`,
`{"status":5,"data":{"form_action":"https://s3.example.com/bucket"}}`. -/
def numericStatusEnvelope : List (String × Json) :=
  [("status", .num "5" (some { neg := false, digits := "5", dp := 1 })),
   ("data", .obj [("form_action", .str "https://s3.example.com/bucket")])]

/-- The upload-params response with the envelope of the numeric status. -/
def numericStatusResponse : Response :=
  { StatusCode := 200, Cookies := []
    Body := .ok (jsonBody
      ("\x7b\"status\":5,\"data\":\x7b\"form_action\":\"https://s3.example.com/bucket\"\x7d\x7d")
      (.obj numericStatusEnvelope)) }

/-- A finalize response whose `otid` is a number, `{"status":"ok","otid":7}`. -/
def finishNumericOtid : Response :=
  { StatusCode := 200, Cookies := []
    Body := .ok (jsonBody "\x7b\"status\":\"ok\",\"otid\":7\x7d"
      (.obj [("status", .str "ok"),
             ("otid", .num "7" (some { neg := false, digits := "7", dp := 1 }))])) }

/-- An object-store response with the given status code and the body
`<Error><Code>AccessDenied</Code></Error>`. -/
def bucketError (code : Nat) : Response :=
  { StatusCode := code, Cookies := []
    Body := .ok (xmlBody "<Error><Code>AccessDenied</Code></Error>"
      [.StartElement "" "Error", .StartElement "" "Code", .CharData "AccessDenied",
       .EndElement, .EndElement]) }

/-- An object-store response whose body breaks off inside the root,
`<PostResponse><Bucket>bkt</Bucket>`. -/
def bucketTruncated : Response :=
  { StatusCode := 200, Cookies := []
    Body := .ok
      { text := "<PostResponse><Bucket>bkt</Bucket>"
        json := .error (.lib "encoding/json" "invalid character")
        xml := { tokens := [.StartElement "" "PostResponse", .StartElement "" "Bucket",
                            .CharData "bkt", .EndElement]
                 stop := .lib "encoding/xml" "unexpected EOF" } } }

/-- A policy whose `SuccessActionStatus` is the `float64` 1000000. -/
def millionPolicy : speechUploadParams :=
  { Status := "ok"
    Data := { Key := "k1", SuccessActionStatus := { neg := false, digits := "1", dp := 7 } } }

/-- The policy of the upload-params scenario, decoded. -/
def policyParams : speechUploadParams :=
  { Status := "ok"
    Data :=
      { AMZAlgorithm := "AWS4-HMAC-SHA256"
        AMZSignature := "0f1e"
        FormAction := "https://s3.example.com/bucket"
        Key := "k1"
        AMZDate := "20240101T000000Z"
        Policy := "eyJ9"
        AMZCredential := "AKIA/20240101/us-east-1/s3/aws4_request"
        SuccessActionStatus := { neg := false, digits := "201", dp := 3 }
        ACL := "private" } }

/-- The receipt of the object-store scenario, decoded. -/
def receipt : speechUploadResponse :=
  { XMLName := ("", "PostResponse"), Location := "loc", Bucket := "bkt", Key := "k1",
    ETag := "tag" }

/-- A transport error. -/
def connectionReset : GoError := .lib "net/http" "connection reset by peer"

/-- A response whose body cannot be read. -/
def unreadable : Response :=
  { StatusCode := 200, Cookies := [], Body := .error (.lib "io" "unexpected EOF") }

/-- A named file of three bytes. -/
def audio : File := { Name := "talk.mp3", Data := .ok [73, 68, 51] }

/-! ## Lemmas on the decoding of JSON objects -/

theorem saveError_none (e : Option GoError) : saveError e none = e := by
  cases e <;> rfl

theorem decodeObject_append {S : Type} (member : S → String → Json → S × Option GoError)
    (xs ys : List (String × Json)) (st : S × Option GoError) :
    decodeObject member (xs ++ ys) st = decodeObject member ys (decodeObject member xs st) := by
  induction xs generalizing st with
  | nil => rfl
  | cons kv rest ih =>
    obtain ⟨key, v⟩ := kv
    simp only [List.cons_append, decodeObject]
    exact ih _

/-- The struct a JSON object decodes to does not depend on the error saved before. -/
theorem decodeObject_fst {S : Type} (member : S → String → Json → S × Option GoError)
    (ms : List (String × Json)) (d : S) (e e' : Option GoError) :
    (decodeObject member ms (d, e)).1 = (decodeObject member ms (d, e')).1 := by
  induction ms generalizing d e e' with
  | nil => rfl
  | cons kv rest ih =>
    obtain ⟨key, v⟩ := kv
    simp only [decodeObject]
    exact ih _ _ _

/-- Members that raise no error leave the saved error as it was. -/
theorem decodeObject_snd {S : Type} (member : S → String → Json → S × Option GoError)
    (ms : List (String × Json))
    (h : ∀ kv ∈ ms, ∀ d, (member d kv.1 kv.2).2 = none) (d : S) (e : Option GoError) :
    (decodeObject member ms (d, e)).2 = e := by
  induction ms generalizing d e with
  | nil => rfl
  | cons kv rest ih =>
    obtain ⟨key, v⟩ := kv
    simp only [decodeObject]
    rw [ih (fun kv hkv => h kv (List.mem_cons_of_mem _ hkv))]
    rw [h (key, v) (List.mem_cons_self _ _) d]
    exact saveError_none e

/-- A field that no member goes to keeps its value. -/
theorem decodeObject_keep {S F β : Type} [DecidableEq F]
    (member : S → String → Json → S × Option GoError) (fields : List F) (tag : F → String)
    (f : F) (get : S → β)
    (hkeep : ∀ d key v, lookupField fields tag key ≠ some f → get (member d key v).1 = get d)
    (ms : List (String × Json)) (hnone : lastNamed fields tag f ms = none)
    (d : S) (e : Option GoError) :
    get (decodeObject member ms (d, e)).1 = get d := by
  induction ms generalizing d e with
  | nil => rfl
  | cons kv rest ih =>
    obtain ⟨key, v⟩ := kv
    simp only [lastNamed] at hnone
    cases hrest : lastNamed fields tag f rest with
    | some x => simp [hrest] at hnone
    | none =>
      simp only [hrest] at hnone
      have hkey : lookupField fields tag key ≠ some f := by
        intro hk
        simp [hk] at hnone
      simp only [decodeObject]
      rw [ih hrest, hkeep d key v hkey]

/-- A field takes the value of the last member that goes to it, when that value fits. -/
theorem decodeObject_last {S F β : Type} [DecidableEq F]
    (member : S → String → Json → S × Option GoError) (fields : List F) (tag : F → String)
    (f : F) (get : S → β) (textOf : Json → Option β)
    (hset : ∀ d key v t, lookupField fields tag key = some f → textOf v = some t →
      get (member d key v).1 = t)
    (hkeep : ∀ d key v, lookupField fields tag key ≠ some f → get (member d key v).1 = get d)
    (ms : List (String × Json)) (v : Json) (t : β)
    (hlast : lastNamed fields tag f ms = some v) (ht : textOf v = some t)
    (d : S) (e : Option GoError) :
    get (decodeObject member ms (d, e)).1 = t := by
  induction ms generalizing d e with
  | nil => simp [lastNamed] at hlast
  | cons kv rest ih =>
    obtain ⟨key, v'⟩ := kv
    simp only [lastNamed] at hlast
    cases hrest : lastNamed fields tag f rest with
    | some x =>
      simp only [hrest, Option.some.injEq] at hlast
      subst hlast
      simp only [decodeObject]
      exact ih hrest _ _
    | none =>
      simp only [hrest] at hlast
      by_cases hk : lookupField fields tag key = some f
      · simp only [hk, if_true, Option.some.injEq] at hlast
        subst hlast
        simp only [decodeObject]
        rw [decodeObject_keep member fields tag f get hkeep rest hrest]
        exact hset d key v' t hk ht
      · simp [hk] at hlast

/-- An error that is saved stays. -/
theorem decodeObject_snd_some {S : Type} (member : S → String → Json → S × Option GoError)
    (ms : List (String × Json)) (d : S) (e : GoError) :
    (decodeObject member ms (d, some e)).2 = some e := by
  induction ms generalizing d with
  | nil => rfl
  | cons kv rest ih =>
    obtain ⟨key, v⟩ := kv
    simp only [decodeObject, saveError]
    exact ih _

/-- The error saved at the end is the one saved before, or one a member raised. -/
theorem decodeObject_snd_of {S : Type} (member : S → String → Json → S × Option GoError)
    (P : GoError → Prop) (ms : List (String × Json))
    (hall : ∀ kv ∈ ms, ∀ d err, (member d kv.1 kv.2).2 = some err → P err)
    (d : S) (e : Option GoError) (he : ∀ err, e = some err → P err) (err : GoError)
    (h : (decodeObject member ms (d, e)).2 = some err) : P err := by
  induction ms generalizing d e with
  | nil => exact he err h
  | cons kv rest ih =>
    obtain ⟨key, v⟩ := kv
    simp only [decodeObject] at h
    refine ih (fun kv hkv => hall kv (List.mem_cons_of_mem _ hkv)) _ _ ?_ h
    intro err' herr'
    cases e with
    | some x =>
      simp only [saveError, Option.some.injEq] at herr'
      exact he err' (by rw [herr'])
    | none =>
      simp only [saveError] at herr'
      exact hall (key, v) (List.mem_cons_self _ _) d err' herr'

/-- A member that raises an error, whatever the struct, leaves an error saved. -/
theorem decodeObject_snd_misfit {S : Type} (member : S → String → Json → S × Option GoError)
    (ms : List (String × Json))
    (h : ∃ kv ∈ ms, ∀ d, (member d kv.1 kv.2).2 ≠ none) (d : S) (e : Option GoError) :
    (decodeObject member ms (d, e)).2 ≠ none := by
  induction ms generalizing d e with
  | nil =>
    obtain ⟨kv, hkv, _⟩ := h
    simp at hkv
  | cons kv rest ih =>
    obtain ⟨key, v⟩ := kv
    obtain ⟨kv', hkv', hbad⟩ := h
    simp only [decodeObject]
    rcases List.mem_cons.mp hkv' with heq | hmem
    · subst heq
      have hne := hbad d
      cases hm : (member d key v).2 with
      | none => exact absurd hm hne
      | some x =>
        cases e with
        | none =>
          simp only [saveError]
          rw [decodeObject_snd_some]
          simp
        | some y =>
          simp only [saveError]
          rw [decodeObject_snd_some]
          simp
    · exact ih ⟨kv', hmem, hbad⟩ _ _

/-! ## Lemmas on the structs of the program -/

theorem dataMember_set (d : speechUploadData) (key : String) (v : Json) (f : DataField)
    (t : String) (hk : lookupField DataField.all DataField.tag key = some f)
    (ht : f.textOf v = some t) : (d.decodeMember key v).1.text f = t := by
  unfold speechUploadData.decodeMember
  rw [hk]
  cases f <;> cases v <;>
    simp_all [DataField.textOf, storeString, storeFloat64, speechUploadData.text]
  all_goals (rename_i lit val; cases val <;> simp_all [DataField.textOf, storeFloat64])

theorem dataMember_keep (d : speechUploadData) (key : String) (v : Json) (f : DataField)
    (hk : lookupField DataField.all DataField.tag key ≠ some f) :
    (d.decodeMember key v).1.text f = d.text f := by
  unfold speechUploadData.decodeMember
  cases hl : lookupField DataField.all DataField.tag key with
  | none => rfl
  | some g =>
    have hne : g ≠ f := fun h => hk (by rw [hl, h])
    cases g <;> cases f <;> simp_all [speechUploadData.text]

theorem dataMember_fits (d : speechUploadData) (key : String) (v : Json)
    (h : (match lookupField DataField.all DataField.tag key with
      | some f => f.fits v
      | none => true) = true) :
    (d.decodeMember key v).2 = none := by
  unfold speechUploadData.decodeMember
  cases hl : lookupField DataField.all DataField.tag key with
  | none => rfl
  | some g =>
    rw [hl] at h
    cases g <;> cases v <;>
      simp_all [DataField.fits, fitsString, fitsFloat64, storeString, storeFloat64]
    all_goals (rename_i lit val; cases val <;> simp_all [fitsFloat64, storeFloat64])

theorem notifyMember_set (r : notifyOtterResponse) (key : String) (v : Json) (t : String)
    (hk : lookupField NotifyField.all NotifyField.tag key = some .OtID)
    (ht : (match v with | .str s => some s | _ => none) = some t) :
    (r.decodeMember key v).1.OtID = t := by
  unfold notifyOtterResponse.decodeMember
  rw [hk]
  cases v <;> simp_all [storeString]

theorem notifyMember_keep (r : notifyOtterResponse) (key : String) (v : Json)
    (hk : lookupField NotifyField.all NotifyField.tag key ≠ some .OtID) :
    (r.decodeMember key v).1.OtID = r.OtID := by
  unfold notifyOtterResponse.decodeMember
  cases hl : lookupField NotifyField.all NotifyField.tag key with
  | none => rfl
  | some g =>
    have hne : g ≠ .OtID := fun h => hk (by rw [hl, h])
    cases g <;> simp_all

theorem notifyMember_fits (r : notifyOtterResponse) (key : String) (v : Json)
    (h : (match lookupField NotifyField.all NotifyField.tag key with
      | some f => f.fits v
      | none => true) = true) :
    (r.decodeMember key v).2 = none := by
  unfold notifyOtterResponse.decodeMember
  cases hl : lookupField NotifyField.all NotifyField.tag key with
  | none => rfl
  | some g =>
    rw [hl] at h
    cases g <;> cases v <;>
      simp_all [NotifyField.fits, fitsString, fitsFloat64, storeString, storeFloat64]
    all_goals (rename_i lit val; cases val <;> simp_all [fitsFloat64, storeFloat64])

/-- The field `Data` of the decoded envelope is the decoding of its `data` members. -/
theorem decode_envelope_data (top : List (String × Json)) (p : speechUploadParams)
    (e : Option GoError) :
    (decodeObject speechUploadParams.decodeMember top (p, e)).1.Data
      = (decodeObject speechUploadData.decodeMember (dataMembers top) (p.Data, none)).1 := by
  induction top generalizing p e with
  | nil => rfl
  | cons kv rest ih =>
    obtain ⟨key, v⟩ := kv
    simp only [decodeObject, dataMembers]
    rw [ih]
    unfold speechUploadParams.decodeMember
    cases hl : lookupField [ParamsField.Status, ParamsField.Data] ParamsField.tag key with
    | none => rfl
    | some g =>
      cases g with
      | Status => cases v <;> rfl
      | Data =>
        cases v with
        | obj members =>
          simp only [speechUploadData.decodeValue]
          rw [decodeObject_append]
          exact decodeObject_fst _ _ _ _ _
        | _ => rfl

/-- A well-formed envelope decodes without error. -/
theorem decode_envelope_fits (top : List (String × Json)) (h : envelopeFits top = true)
    (p : speechUploadParams) (e : Option GoError) :
    (decodeObject speechUploadParams.decodeMember top (p, e)).2 = e := by
  apply decodeObject_snd
  intro kv hkv q
  have hkv' := (List.all_eq_true.mp h) kv hkv
  unfold speechUploadParams.decodeMember
  cases hl : lookupField [ParamsField.Status, ParamsField.Data] ParamsField.tag kv.1 with
  | none => rfl
  | some g =>
    rw [hl] at hkv'
    cases g with
    | Status =>
      cases hv : kv.2 <;> simp_all [fitsString, storeString]
    | Data =>
      cases hv : kv.2 with
      | obj members =>
        rw [hv] at hkv'
        simp only [speechUploadData.decodeValue]
        exact decodeObject_snd _ _
          (fun m hm d => dataMember_fits d m.1 m.2 ((List.all_eq_true.mp hkv') m hm)) _ _
      | null => rfl
      | _ => rw [hv] at hkv'; exact absurd hkv' (by simp [fitsData])

/-- A finalize record whose members fit decodes without error. -/
theorem decode_notify_fits (members : List (String × Json)) (h : notifyFits members = true)
    (r : notifyOtterResponse) (e : Option GoError) :
    (decodeObject notifyOtterResponse.decodeMember members (r, e)).2 = e :=
  decodeObject_snd _ _
    (fun m hm d => notifyMember_fits d m.1 m.2 ((List.all_eq_true.mp h) m hm)) _ _

theorem notifyMember_value_set (r : notifyOtterResponse) (key : String) (v : Json)
    (f : NotifyField) (x : FieldValue)
    (hk : lookupField NotifyField.all NotifyField.tag key = some f)
    (hx : f.valueOf v = some x) : (r.decodeMember key v).1.value f = x := by
  unfold notifyOtterResponse.decodeMember
  rw [hk]
  cases f <;> cases v <;>
    simp_all [NotifyField.valueOf, storeString, storeFloat64, notifyOtterResponse.value]
  all_goals (rename_i lit val; cases val <;> simp_all [NotifyField.valueOf, storeFloat64])

theorem notifyMember_value_keep (r : notifyOtterResponse) (key : String) (v : Json)
    (f : NotifyField) (hk : lookupField NotifyField.all NotifyField.tag key ≠ some f) :
    (r.decodeMember key v).1.value f = r.value f := by
  unfold notifyOtterResponse.decodeMember
  cases hl : lookupField NotifyField.all NotifyField.tag key with
  | none => rfl
  | some g =>
    have hne : g ≠ f := fun h => hk (by rw [hl, h])
    cases g <;> cases f <;> simp_all [notifyOtterResponse.value]

/-- The errors of the two stores are type errors. -/
theorem storeString_kind (field cur : String) (v : Json) (err : GoError)
    (h : (storeString field cur v).2 = some err) : ∃ value path, err = .jsonType value path := by
  cases v <;> simp_all [storeString]
  all_goals exact ⟨_, _, h.symm⟩

theorem storeFloat64_kind (field : String) (cur : Float64) (v : Json) (err : GoError)
    (h : (storeFloat64 field cur v).2 = some err) : ∃ value path, err = .jsonType value path := by
  cases v <;> simp_all [storeFloat64]
  case num lit val =>
    cases val <;> simp_all [storeFloat64]
    exact ⟨_, _, h.symm⟩
  all_goals exact ⟨_, _, h.symm⟩

theorem notifyMember_kind (r : notifyOtterResponse) (key : String) (v : Json) (err : GoError)
    (h : (r.decodeMember key v).2 = some err) : ∃ value path, err = .jsonType value path := by
  unfold notifyOtterResponse.decodeMember at h
  cases hl : lookupField NotifyField.all NotifyField.tag key with
  | none => simp [hl] at h
  | some g =>
    rw [hl] at h
    cases g
    · exact storeString_kind _ _ _ _ h
    · exact storeString_kind _ _ _ _ h
    · exact storeFloat64_kind _ _ _ _ h
    · exact storeString_kind _ _ _ _ h

theorem dataMember_kind (d : speechUploadData) (key : String) (v : Json) (err : GoError)
    (h : (d.decodeMember key v).2 = some err) : ∃ value path, err = .jsonType value path := by
  unfold speechUploadData.decodeMember at h
  cases hl : lookupField DataField.all DataField.tag key with
  | none => simp [hl] at h
  | some g =>
    rw [hl] at h
    cases g
    case SuccessActionStatus => exact storeFloat64_kind _ _ _ _ h
    all_goals exact storeString_kind _ _ _ _ h

theorem notifyMember_misfit (r : notifyOtterResponse) (key : String) (v : Json)
    (h : (match lookupField NotifyField.all NotifyField.tag key with
      | some f => f.fits v
      | none => true) = false) :
    (r.decodeMember key v).2 ≠ none := by
  unfold notifyOtterResponse.decodeMember
  cases hl : lookupField NotifyField.all NotifyField.tag key with
  | none => simp [hl] at h
  | some g =>
    rw [hl] at h
    cases g <;> cases v <;>
      simp_all [NotifyField.fits, fitsString, fitsFloat64, storeString, storeFloat64]
    all_goals (rename_i lit val; cases val <;> simp_all [fitsFloat64, storeFloat64])

theorem dataMember_misfit (d : speechUploadData) (key : String) (v : Json)
    (h : (match lookupField DataField.all DataField.tag key with
      | some f => f.fits v
      | none => true) = false) :
    (d.decodeMember key v).2 ≠ none := by
  unfold speechUploadData.decodeMember
  cases hl : lookupField DataField.all DataField.tag key with
  | none => simp [hl] at h
  | some g =>
    rw [hl] at h
    cases g <;> cases v <;>
      simp_all [DataField.fits, fitsString, fitsFloat64, storeString, storeFloat64]
    all_goals (rename_i lit val; cases val <;> simp_all [fitsFloat64, storeFloat64])

/-- A finalize record with a member that does not fit decodes with a type error. -/
theorem decode_notify_misfit (members : List (String × Json))
    (h : notifyFits members = false) (r : notifyOtterResponse) :
    ∃ value path, (decodeObject notifyOtterResponse.decodeMember members (r, none)).2
      = some (.jsonType value path) := by
  have hex : ∃ kv ∈ members, ∀ d : notifyOtterResponse, (d.decodeMember kv.1 kv.2).2 ≠ none := by
    unfold notifyFits at h
    rw [List.all_eq_false] at h
    obtain ⟨kv, hkv, hbad⟩ := h
    exact ⟨kv, hkv, fun d => notifyMember_misfit d kv.1 kv.2 (by simpa using hbad)⟩
  have hne := decodeObject_snd_misfit notifyOtterResponse.decodeMember members hex r none
  cases hres : (decodeObject notifyOtterResponse.decodeMember members (r, none)).2 with
  | none => exact absurd hres hne
  | some err =>
    obtain ⟨value, path, hk⟩ := decodeObject_snd_of notifyOtterResponse.decodeMember
      (fun e => ∃ value path, e = .jsonType value path) members
      (fun kv _ d e he => notifyMember_kind d kv.1 kv.2 e he) r none (by simp) err hres
    exact ⟨value, path, by rw [hk]⟩

/-- A `data` object with a member that does not fit decodes with a type error. -/
theorem decode_data_misfit (members : List (String × Json))
    (h : dataFits members = false) (d : speechUploadData) :
    ∃ value path, (decodeObject speechUploadData.decodeMember members (d, none)).2
      = some (.jsonType value path) := by
  have hex : ∃ kv ∈ members, ∀ d : speechUploadData, (d.decodeMember kv.1 kv.2).2 ≠ none := by
    unfold dataFits at h
    rw [List.all_eq_false] at h
    obtain ⟨kv, hkv, hbad⟩ := h
    exact ⟨kv, hkv, fun d => dataMember_misfit d kv.1 kv.2 (by simpa using hbad)⟩
  have hne := decodeObject_snd_misfit speechUploadData.decodeMember members hex d none
  cases hres : (decodeObject speechUploadData.decodeMember members (d, none)).2 with
  | none => exact absurd hres hne
  | some err =>
    obtain ⟨value, path, hk⟩ := decodeObject_snd_of speechUploadData.decodeMember
      (fun e => ∃ value path, e = .jsonType value path) members
      (fun kv _ d e he => dataMember_kind d kv.1 kv.2 e he) d none (by simp) err hres
    exact ⟨value, path, by rw [hk]⟩

theorem paramsMember_kind (p : speechUploadParams) (key : String) (v : Json) (err : GoError)
    (h : (p.decodeMember key v).2 = some err) : ∃ value path, err = .jsonType value path := by
  unfold speechUploadParams.decodeMember at h
  cases hl : lookupField [ParamsField.Status, ParamsField.Data] ParamsField.tag key with
  | none => simp [hl] at h
  | some g =>
    rw [hl] at h
    cases g with
    | Status => exact storeString_kind _ _ _ _ h
    | Data =>
      simp only at h
      cases v with
      | obj members =>
        simp only [speechUploadData.decodeValue] at h
        exact decodeObject_snd_of speechUploadData.decodeMember
          (fun e => ∃ value path, e = .jsonType value path) members
          (fun kv _ d e he => dataMember_kind d kv.1 kv.2 e he) _ none (by simp) err h
      | null => simp [speechUploadData.decodeValue] at h
      | _ =>
        simp only [speechUploadData.decodeValue, Option.some.injEq] at h
        exact ⟨_, _, h.symm⟩

theorem paramsMember_misfit (p : speechUploadParams) (key : String) (v : Json)
    (h : (match lookupField [ParamsField.Status, ParamsField.Data] ParamsField.tag key with
      | some .Status => fitsString v
      | some .Data => fitsData v
      | none => true) = false) :
    (p.decodeMember key v).2 ≠ none := by
  unfold speechUploadParams.decodeMember
  cases hl : lookupField [ParamsField.Status, ParamsField.Data] ParamsField.tag key with
  | none => simp [hl] at h
  | some g =>
    rw [hl] at h
    cases g with
    | Status => cases v <;> simp_all [fitsString, storeString]
    | Data =>
      cases v with
      | obj members =>
        simp only [fitsData] at h
        obtain ⟨value, path, hk⟩ := decode_data_misfit members h p.Data
        simp only [speechUploadData.decodeValue, hk]
        simp
      | null => simp [fitsData] at h
      | _ => simp [speechUploadData.decodeValue]

/-- An envelope with a member that does not fit decodes with a type error. -/
theorem decode_envelope_misfit (top : List (String × Json))
    (h : envelopeFits top = false) (p : speechUploadParams) :
    ∃ value path, (decodeObject speechUploadParams.decodeMember top (p, none)).2
      = some (.jsonType value path) := by
  have hex : ∃ kv ∈ top, ∀ d : speechUploadParams, (d.decodeMember kv.1 kv.2).2 ≠ none := by
    unfold envelopeFits at h
    rw [List.all_eq_false] at h
    obtain ⟨kv, hkv, hbad⟩ := h
    exact ⟨kv, hkv, fun d => paramsMember_misfit d kv.1 kv.2 (by simpa using hbad)⟩
  have hne := decodeObject_snd_misfit speechUploadParams.decodeMember top hex p none
  cases hres : (decodeObject speechUploadParams.decodeMember top (p, none)).2 with
  | none => exact absurd hres hne
  | some err =>
    obtain ⟨value, path, hk⟩ := decodeObject_snd_of speechUploadParams.decodeMember
      (fun e => ∃ value path, e = .jsonType value path) top
      (fun kv _ d e he => paramsMember_kind d kv.1 kv.2 e he) p none (by simp) err hres
    exact ⟨value, path, by rw [hk]⟩

/-- The decoder between the start and the end of the root ends the root exactly when the
tokens close it. -/
theorem xmlWalk_closes (tokens : List XmlToken) (mode : XmlMode) (r : speechUploadResponse) :
    (xmlWalk mode r tokens).2 = closes mode.depth tokens := by
  induction tokens generalizing mode r with
  | nil => simp [xmlWalk, closes]
  | cons tok rest ih =>
    cases mode with
    | root =>
      cases tok with
      | StartElement space name =>
        simp only [xmlWalk, closes, XmlMode.depth]
        cases XmlField.named name <;> simp only [ih, XmlMode.depth]
      | EndElement => rfl
      | _ => simp only [xmlWalk, closes, XmlMode.depth, ih]
    | field f data =>
      cases tok <;> simp only [xmlWalk, closes, XmlMode.depth, ih]
    | skip depth back =>
      cases tok with
      | EndElement =>
        cases depth <;> cases back <;> simp only [xmlWalk, closes, XmlMode.depth, ih]
      | _ => cases back <;> simp only [xmlWalk, closes, XmlMode.depth, ih]

theorem parseSpeechUploadParams_eq (body : Body) :
    parseSpeechUploadParams body = speechUploadParams.Unmarshal body := by
  unfold parseSpeechUploadParams
  split <;> simp_all

theorem parseSpeechUploadResponse_eq (body : Body) :
    parseSpeechUploadResponse body = speechUploadResponse.Unmarshal body := by
  unfold parseSpeechUploadResponse
  split <;> simp_all

/-! ## Lemmas on `fmt.Sprint` -/

/-- A list of digits is what it is without the zeros at its end, and those zeros. -/
theorem stripZeros_append (l : List Char) :
    (l.reverse.dropWhile (· == '0')).reverse
      ++ List.replicate (l.length - (l.reverse.dropWhile (· == '0')).length) '0' = l := by
  have hsplit := List.takeWhile_append_dropWhile (fun c => c == '0') l.reverse
  have htake : l.reverse.takeWhile (fun c => c == '0')
      = List.replicate (l.reverse.takeWhile (fun c => c == '0')).length '0' := by
    rw [List.eq_replicate_iff]
    refine ⟨rfl, ?_⟩
    intro c hc
    have := List.mem_takeWhile_imp hc
    simpa using this
  have hlen : l.length = (l.reverse.takeWhile (fun c => c == '0')).length
      + (l.reverse.dropWhile (fun c => c == '0')).length := by
    have := congrArg List.length hsplit
    simp only [List.length_append, List.length_reverse] at this
    omega
  have hl : l = (l.reverse.dropWhile (fun c => c == '0')).reverse
      ++ (l.reverse.takeWhile (fun c => c == '0')).reverse := by
    have := congrArg List.reverse hsplit
    simp only [List.reverse_append, List.reverse_reverse] at this
    exact this.symm
  have hk : l.length - (l.reverse.dropWhile (fun c => c == '0')).length
      = (l.reverse.takeWhile (fun c => c == '0')).length := by omega
  rw [hk]
  conv_rhs => rw [hl]
  congr 1
  rw [htake, List.reverse_replicate, List.length_replicate]

theorem toDigits_length_pos (n : Nat) : 0 < (Nat.toDigits 10 n).length := by
  unfold Nat.toDigits
  rw [Nat.toDigitsCore]
  split
  · simp
  · rw [Nat.toDigitsCore_lens_eq]
    omega

/-- The text `fmt.Sprint` prints for the `float64` of a whole number below 1000000 is the
decimal numeral of the number. -/
theorem Sprint_ofNat (n : Nat) (h : n < 1000000) : (Float64.ofNat n).Sprint = toString n := by
  by_cases h0 : n = 0
  · subst h0
    decide
  · have hlen : (Nat.toDigits 10 n).length ≤ 6 := by
      have := Nat.repr_length n 6 (by decide) (by simpa using h)
      simpa [Nat.repr, List.asString] using this
    have hpos := toDigits_length_pos n
    have hstrip := stripZeros_append (Nat.toDigits 10 n)
    have hle : ((Nat.toDigits 10 n).reverse.dropWhile (· == '0')).length
        ≤ (Nat.toDigits 10 n).length := by
      have := (List.dropWhile_sublist (· == '0') (l := (Nat.toDigits 10 n).reverse)).length_le
      simpa using this
    have hto : toString n = String.mk (Nat.toDigits 10 n) := rfl
    rw [hto]
    unfold Float64.ofNat
    rw [if_neg h0]
    generalize Nat.toDigits 10 n = ds at hlen hpos hstrip hle
    generalize hs : (ds.reverse.dropWhile (· == '0')).reverse = st at hstrip
    have hst : st.length ≤ ds.length := by
      rw [← hs]; simpa using hle
    have hstl : (ds.reverse.dropWhile (· == '0')).length = st.length := by
      rw [← hs]; simp
    rw [hstl] at hstrip
    unfold Float64.Sprint
    have hexp : ¬ (((ds.length : Int) - 1 < -4) ∨ (6 ≤ (ds.length : Int) - 1)) := by omega
    simp only [hexp, if_false]
    unfold Float64.fmtF
    have hdp : (0 : Int) < (ds.length : Int) := by omega
    have hprec : ((st.length : Int) - (ds.length : Int)).toNat = 0 := by omega
    simp only [hdp, if_true, hprec, Int.toNat_ofNat, List.take_of_length_le hst,
      lt_irrefl, if_false, Bool.false_eq_true, hstrip]
    apply String.ext
    simp

/-- The text `fmt.Sprint` prints at some values outside the whole numbers below 1000000:
0, 0.5, 201.5, 0.0001, 0.00001, -201, 123456789, 1.5e21 and 1e100. -/
theorem Sprint_examples :
    Float64.zero.Sprint = "0" ∧
    Float64.Sprint { neg := false, digits := "5", dp := 0 } = "0.5" ∧
    Float64.Sprint { neg := false, digits := "2015", dp := 3 } = "201.5" ∧
    Float64.Sprint { neg := false, digits := "1", dp := -3 } = "0.0001" ∧
    Float64.Sprint { neg := false, digits := "1", dp := -4 } = "1e-05" ∧
    Float64.Sprint { neg := true, digits := "201", dp := 3 } = "-201" ∧
    Float64.Sprint { neg := false, digits := "123456789", dp := 9 } = "1.23456789e+08" ∧
    Float64.Sprint { neg := false, digits := "15", dp := 22 } = "1.5e+21" ∧
    Float64.Sprint { neg := false, digits := "1", dp := 101 } = "1e+100" := by
  decide

/-- Among cookies that hold one of a given name, `find?` gives one of that name. -/
theorem find_named (cookies : List Cookie) (name : String)
    (h : ∃ c ∈ cookies, c.Name = name) :
    ∃ c, cookies.find? (fun c => c.Name == name) = some c ∧ c ∈ cookies ∧ c.Name = name := by
  cases hfind : cookies.find? (fun c => c.Name == name) with
  | none =>
    rw [List.find?_eq_none] at hfind
    obtain ⟨c, hc, hn⟩ := h
    have := hfind c hc
    simp [hn] at this
  | some c =>
    refine ⟨c, rfl, List.mem_of_find?_eq_some hfind, ?_⟩
    have := List.find?_some hfind
    simpa using this

/-! ## The claims -/

/-- C6: for every response of the CSRF endpoint, when its cookies hold one named
`csrftoken`, `getCSRFToken` returns the value of such a cookie, the first of them, and no
error; when they hold none, it returns the empty string and an error, which carries the
text of the response body whenever the body can be read (and is the error of the read
otherwise). -/
theorem getCSRFToken_cookie_or_error {σ : Type} (w : World σ) (n : Net σ) (resp : Response)
    (hdo : (send w csrfRequest n).1 = .ok resp) :
    (∀ cookie, resp.Cookies.find? (fun c => c.Name == "csrftoken") = some cookie →
      (getCSRFToken w n).1 = .ret cookie.Value none) ∧
    ((∃ c ∈ resp.Cookies, c.Name = "csrftoken") →
      ∃ c ∈ resp.Cookies, c.Name = "csrftoken" ∧ (getCSRFToken w n).1 = .ret c.Value none) ∧
    ((∀ c ∈ resp.Cookies, c.Name ≠ "csrftoken") →
      (∀ body, resp.Body = .ok body →
        (getCSRFToken w n).1
          = .ret "" (some (.errorsNew ("Unable to find CSRF token " ++ body.text)))) ∧
      (∀ err, resp.Body = .error err → (getCSRFToken w n).1 = .ret "" (some err))) := by
  have hsend : send w csrfRequest n = (.ok resp, (send w csrfRequest n).2) := by
    rw [← hdo]
  have hsome : ∀ cookie, resp.Cookies.find? (fun c => c.Name == "csrftoken") = some cookie →
      (getCSRFToken w n).1 = .ret cookie.Value none := by
    intro cookie hfind
    unfold getCSRFToken
    rw [hsend]
    simp only [hfind]
  refine ⟨hsome, ?_, ?_⟩
  · intro hex
    obtain ⟨c, hfind, hmem, hname⟩ := find_named resp.Cookies "csrftoken" hex
    exact ⟨c, hmem, hname, hsome c hfind⟩
  · intro hnone
    have hfind : resp.Cookies.find? (fun c => c.Name == "csrftoken") = none := by
      rw [List.find?_eq_none]
      intro c hc
      simpa using hnone c hc
    refine ⟨?_, ?_⟩
    · intro body hbody
      unfold getCSRFToken
      rw [hsend]
      simp only [hfind, getResponseBody, hbody]
    · intro err hbody
      unfold getCSRFToken
      rw [hsend]
      simp only [hfind, getResponseBody, hbody]

/-- C6, on the scenario: a CSRF response with the cookie `csrftoken=abc123` gives `abc123`. -/
theorem getCSRFToken_cookie_or_error_witness :
    (send scripted csrfRequest (start [.ok csrfResponse])).1 = .ok csrfResponse ∧
    (getCSRFToken scripted (start [.ok csrfResponse])).1 = .ret "abc123" none :=
  ⟨rfl, (getCSRFToken_cookie_or_error scripted (start [.ok csrfResponse]) csrfResponse rfl).1
    { Name := "csrftoken", Value := "abc123" } rfl⟩

/-- C1: for every pair of credentials and every response to the login request (the CSRF
token having been fetched), when the cookies of the response hold one named `sessionid`,
`Login` returns the value of such a cookie, the first of them, as it stands and no error;
when they hold none, `Login` returns the empty string and the error "Unable to find
session id". -/
theorem Login_session_or_error {σ : Type} (w : World σ) (username password : String)
    (n n1 : Net σ) (csrfToken : String) (resp : Response)
    (hcsrf : getCSRFToken w n = (.ret csrfToken none, n1))
    (hdo : (send w (loginRequest username password csrfToken) n1).1 = .ok resp) :
    (∀ cookie, resp.Cookies.find? (fun c => c.Name == "sessionid") = some cookie →
      (Login w username password n).1 = .ret cookie.Value none) ∧
    ((∃ c ∈ resp.Cookies, c.Name = "sessionid") →
      ∃ c ∈ resp.Cookies, c.Name = "sessionid" ∧
        (Login w username password n).1 = .ret c.Value none) ∧
    ((∀ c ∈ resp.Cookies, c.Name ≠ "sessionid") →
      (Login w username password n).1 = .ret "" (some (.noSessionId resp.Cookies))) := by
  have hsend : send w (loginRequest username password csrfToken) n1
      = (.ok resp, (send w (loginRequest username password csrfToken) n1).2) := by
    rw [← hdo]
  have hsome : ∀ cookie, resp.Cookies.find? (fun c => c.Name == "sessionid") = some cookie →
      (Login w username password n).1 = .ret cookie.Value none := by
    intro cookie hfind
    unfold Login
    rw [hcsrf]
    simp only
    rw [hsend]
    simp only [hfind]
  refine ⟨hsome, ?_, ?_⟩
  · intro hex
    obtain ⟨c, hfind, hmem, hname⟩ := find_named resp.Cookies "sessionid" hex
    exact ⟨c, hmem, hname, hsome c hfind⟩
  · intro hnone
    have hfind : resp.Cookies.find? (fun c => c.Name == "sessionid") = none := by
      rw [List.find?_eq_none]
      intro c hc
      simpa using hnone c hc
    unfold Login
    rw [hcsrf]
    simp only
    rw [hsend]
    simp only [hfind]

/-- C1, on the scenario: credentials `("alice", "secret")`, a CSRF response with the
cookie `csrftoken=abc123` and a login response with the cookie `sessionid=sess456` give
`sess456`. -/
theorem Login_session_or_error_witness :
    getCSRFToken scripted (start [.ok csrfResponse, .ok loginResponse])
      = (.ret "abc123" none,
         { state := [.ok loginResponse], sent := [csrfRequest] }) ∧
    (send scripted (loginRequest "alice" "secret" "abc123")
      { state := [.ok loginResponse], sent := [csrfRequest] }).1 = .ok loginResponse ∧
    (Login scripted "alice" "secret" (start [.ok csrfResponse, .ok loginResponse])).1
      = .ret "sess456" none :=
  ⟨rfl, rfl,
   (Login_session_or_error scripted "alice" "secret"
      (start [.ok csrfResponse, .ok loginResponse])
      { state := [.ok loginResponse], sent := [csrfRequest] } "abc123" loginResponse rfl rfl).1
      { Name := "sessionid", Value := "sess456" } rfl⟩

/-- The form `createSpeechFormData` writes, when the file can be read. -/
theorem createSpeechFormData_ok {σ : Type} (w : World σ) (name : String) (data : List UInt8)
    (params : speechUploadParams) (n : Net σ) :
    (createSpeechFormData w { Name := name, Data := .ok data } params n).1
      = .ret ((w.Boundary n.state).1,
          { Boundary := (w.Boundary n.state).1
            Parts :=
              [{ Name := "x-amz-algorithm", FileName := none, ContentType := none,
                 Content := bytesOf params.Data.AMZAlgorithm },
               { Name := "x-amz-signature", FileName := none, ContentType := none,
                 Content := bytesOf params.Data.AMZSignature },
               { Name := "key", FileName := none, ContentType := none,
                 Content := bytesOf params.Data.Key },
               { Name := "x-amz-date", FileName := none, ContentType := none,
                 Content := bytesOf params.Data.AMZDate },
               { Name := "policy", FileName := none, ContentType := none,
                 Content := bytesOf params.Data.Policy },
               { Name := "success_action_status", FileName := none, ContentType := none,
                 Content := bytesOf params.Data.SuccessActionStatus.Sprint },
               { Name := "x-amz-credential", FileName := none, ContentType := none,
                 Content := bytesOf params.Data.AMZCredential },
               { Name := "acl", FileName := none, ContentType := none,
                 Content := bytesOf params.Data.ACL },
               { Name := "file", FileName := some name,
                 ContentType := some "application/octet-stream", Content := data }]
            Closed := true }) none := rfl

/-- C3, as amended: for every upload policy and every named file (that can be read), the form
`createSpeechFormData` builds has a part of each of the nine names (the eight fields of the
policy and `file`) exactly once and no part of another name; the content of each of the
seven string fields is, byte for byte, the attribute of the policy it is named after, and
the content of `file` is that of the file; the content of `success_action_status`, whose
attribute is a `float64`, is the text `fmt.Sprint` prints for the attribute, which is the
decimal numeral of the attribute when the attribute is a whole number below 1000000. -/
theorem createSpeechFormData_fields {σ : Type} (w : World σ) (name : String)
    (data : List UInt8) (params : speechUploadParams) (n : Net σ) :
    ∃ boundary form,
      (createSpeechFormData w { Name := name, Data := .ok data } params n).1
        = .ret (boundary, form) none ∧
      (∀ nm, (form.Parts.map Part.Name).count nm = if nm ∈ formNames then 1 else 0) ∧
      form.valuesOf "x-amz-algorithm" = [bytesOf params.Data.AMZAlgorithm] ∧
      form.valuesOf "x-amz-signature" = [bytesOf params.Data.AMZSignature] ∧
      form.valuesOf "key" = [bytesOf params.Data.Key] ∧
      form.valuesOf "x-amz-date" = [bytesOf params.Data.AMZDate] ∧
      form.valuesOf "policy" = [bytesOf params.Data.Policy] ∧
      form.valuesOf "success_action_status"
        = [bytesOf params.Data.SuccessActionStatus.Sprint] ∧
      (∀ status, status < 1000000 → params.Data.SuccessActionStatus = Float64.ofNat status →
        form.valuesOf "success_action_status" = [bytesOf (toString status)]) ∧
      form.valuesOf "x-amz-credential" = [bytesOf params.Data.AMZCredential] ∧
      form.valuesOf "acl" = [bytesOf params.Data.ACL] ∧
      form.valuesOf "file" = [data] := by
  refine ⟨_, _, createSpeechFormData_ok w name data params n, ?_, ?_⟩
  · intro nm
    change formNames.count nm = _
    have hnodup : formNames.Nodup := by decide
    by_cases hmem : nm ∈ formNames
    · rw [if_pos hmem]
      exact List.count_eq_one_of_mem hnodup hmem
    · rw [if_neg hmem]
      exact List.count_eq_zero_of_not_mem hmem
  · refine ⟨rfl, rfl, rfl, rfl, rfl, rfl, ?_, rfl, rfl, rfl⟩
    intro status hlt hstatus
    change [bytesOf params.Data.SuccessActionStatus.Sprint] = _
    rw [hstatus, Sprint_ofNat status hlt]

/-- C3 as amended, on a scenario: the policy of the upload-params scenario, whose status is
201, gives the part `success_action_status` the content `201`, the bytes 50, 48, 49. -/
theorem createSpeechFormData_fields_witness :
    (createSpeechFormData scripted audio policyParams (start [])).1.val?.map
      (fun r => r.2.valuesOf "success_action_status") = some [[50, 48, 49]] := by
  obtain ⟨boundary, form, hform, _, _, _, _, _, _, _, hstatus, _⟩ :=
    createSpeechFormData_fields scripted "talk.mp3" [73, 68, 51] policyParams (start [])
  have h201 := hstatus 201 (by decide) (by decide)
  have hfile : audio = { Name := "talk.mp3", Data := .ok [73, 68, 51] } := rfl
  rw [hfile, hform]
  simp only [Outcome.val?, Option.map_some', h201]
  rfl

/-- C3, a counterexample: the attribute `SuccessActionStatus` of the policy is the `float64`
1000000, and the part `success_action_status` of the form holds `1e+06`, not the numeral
`1000000`. -/
theorem createSpeechFormData_prints_exponent :
    millionPolicy.Data.SuccessActionStatus = Float64.ofNat 1000000 ∧
    (createSpeechFormData scripted audio millionPolicy (start [])).1.val?.map
      (fun r => r.2.valuesOf "success_action_status") = some [bytesOf "1e+06"] ∧
    bytesOf "1e+06" ≠ bytesOf (toString 1000000) := by
  refine ⟨by decide, rfl, by decide⟩

/-- C4: for every upload policy and every named file (that can be read), the parts of the
form `createSpeechFormData` builds come in this order: algorithm, signature, key, date,
policy, success_action_status, credential, acl, and the file, which is the last part. -/
theorem createSpeechFormData_order {σ : Type} (w : World σ) (name : String)
    (data : List UInt8) (params : speechUploadParams) (n : Net σ) :
    ∃ boundary form,
      (createSpeechFormData w { Name := name, Data := .ok data } params n).1
        = .ret (boundary, form) none ∧
      form.Parts.map Part.Name
        = ["x-amz-algorithm", "x-amz-signature", "key", "x-amz-date", "policy",
           "success_action_status", "x-amz-credential", "acl", "file"] ∧
      form.Parts.getLast?
        = some { Name := "file", FileName := some name,
                 ContentType := some "application/octet-stream", Content := data } :=
  ⟨_, _, createSpeechFormData_ok w name data params n, rfl, rfl⟩

/-- The text of a field after an envelope is decoded, from the last `data` member that
goes to the field. -/
theorem decode_envelope_text (top : List (String × Json)) (f : DataField) (v : Json)
    (t : String)
    (hlast : lastNamed DataField.all DataField.tag f (dataMembers top) = some v)
    (ht : f.textOf v = some t) :
    (decodeObject speechUploadParams.decodeMember top ({}, none)).1.Data.text f = t := by
  rw [decode_envelope_data]
  exact decodeObject_last speechUploadData.decodeMember DataField.all DataField.tag f
    (fun d => d.text f) f.textOf
    (fun d key v t hk ht => dataMember_set d key v f t hk ht)
    (fun d key v hk => dataMember_keep d key v f hk)
    (dataMembers top) v t hlast ht _ _

/-- C8, as amended: for every upload-params response whose body is an envelope
`{status, data: {...}}` in which every member is of the JSON kind of the field it goes to
(a status that is a string or `null`, `data` an object of strings and a numeric
`success_action_status`) and `data.form_action` is a string `s`, `getSpeechUploadParams`
returns without error a policy whose `FormAction` is `s`, whatever the status string says;
for an envelope with a member of another kind it returns no policy but a type error. -/
theorem getSpeechUploadParams_formAction {σ : Type} (w : World σ) (sessionId : String)
    (n : Net σ) (resp : Response) (body : Body) (top : List (String × Json))
    (hdo : (send w (paramsRequest sessionId) n).1 = .ok resp)
    (hbody : resp.Body = .ok body)
    (hjson : body.json = .ok (.obj top)) :
    (envelopeFits top = true → ∀ s,
      lastNamed DataField.all DataField.tag .FormAction (dataMembers top) = some (.str s) →
      ∃ params, (getSpeechUploadParams w sessionId n).1 = .ret params none ∧
        params.Data.FormAction = s) ∧
    (∀ status members s, top = [("status", .str status), ("data", .obj members)] →
      dataFits members = true →
      lastNamed DataField.all DataField.tag .FormAction members = some (.str s) →
      ∃ params, (getSpeechUploadParams w sessionId n).1 = .ret params none ∧
        params.Data.FormAction = s ∧ params.Status = status) ∧
    (envelopeFits top = false →
      ∃ value path, (getSpeechUploadParams w sessionId n).1
        = .ret {} (some (.jsonType value path))) := by
  have hsend : send w (paramsRequest sessionId) n
      = (.ok resp, (send w (paramsRequest sessionId) n).2) := by
    rw [← hdo]
  have hrun : (getSpeechUploadParams w sessionId n).1
      = match decodeObject speechUploadParams.decodeMember top ({}, none) with
        | (_, some err) => .ret {} (some err)
        | (params, none) => .ret params none := by
    unfold getSpeechUploadParams
    rw [hsend]
    simp only [getResponseBody, hbody, parseSpeechUploadParams_eq,
      speechUploadParams.Unmarshal, hjson]
    split <;> rfl
  have hfit : envelopeFits top = true → ∀ s,
      lastNamed DataField.all DataField.tag .FormAction (dataMembers top) = some (.str s) →
      ∃ params, (getSpeechUploadParams w sessionId n).1 = .ret params none ∧
        params.Data.FormAction = s := by
    intro henv s hform
    have herr : (decodeObject speechUploadParams.decodeMember top ({}, none)).2 = none :=
      decode_envelope_fits top henv _ _
    have hval := decode_envelope_text top .FormAction (.str s) s hform rfl
    refine ⟨(decodeObject speechUploadParams.decodeMember top ({}, none)).1, ?_, hval⟩
    rw [hrun, show decodeObject speechUploadParams.decodeMember top ({}, none)
      = ((decodeObject speechUploadParams.decodeMember top ({}, none)).1, none) from
        Prod.ext rfl herr]
  refine ⟨hfit, ?_, ?_⟩
  · intro status members s htop hdata hform
    have henv : envelopeFits top = true := by
      rw [htop]
      simp only [envelopeFits, List.all_cons, List.all_nil, Bool.and_true]
      rw [show lookupField [ParamsField.Status, ParamsField.Data] ParamsField.tag "status"
          = some .Status from by decide,
        show lookupField [ParamsField.Status, ParamsField.Data] ParamsField.tag "data"
          = some .Data from by decide]
      simp [fitsString, fitsData, hdata]
    have herr : (decodeObject speechUploadParams.decodeMember top ({}, none)).2 = none :=
      decode_envelope_fits top henv _ _
    have hmem : dataMembers top = members := by
      rw [htop]
      simp only [dataMembers]
      rw [show lookupField [ParamsField.Status, ParamsField.Data] ParamsField.tag "status"
          = some .Status from by decide,
        show lookupField [ParamsField.Status, ParamsField.Data] ParamsField.tag "data"
          = some .Data from by decide]
      simp
    have hval := decode_envelope_text top .FormAction (.str s) s (by rw [hmem]; exact hform) rfl
    refine ⟨(decodeObject speechUploadParams.decodeMember top ({}, none)).1, ?_, hval, ?_⟩
    · rw [hrun, show decodeObject speechUploadParams.decodeMember top ({}, none)
        = ((decodeObject speechUploadParams.decodeMember top ({}, none)).1, none) from
          Prod.ext rfl herr]
    · rw [htop]
      simp only [decodeObject, speechUploadParams.decodeMember]
      rw [show lookupField [ParamsField.Status, ParamsField.Data] ParamsField.tag "status"
          = some .Status from by decide,
        show lookupField [ParamsField.Status, ParamsField.Data] ParamsField.tag "data"
          = some .Data from by decide]
      simp [storeString]
  · intro henv
    obtain ⟨value, path, hk⟩ := decode_envelope_misfit top henv {}
    refine ⟨value, path, ?_⟩
    rw [hrun, show decodeObject speechUploadParams.decodeMember top ({}, none)
      = ((decodeObject speechUploadParams.decodeMember top ({}, none)).1,
          some (.jsonType value path)) from Prod.ext rfl hk]

/-- C8 as amended, on the scenario: the envelope with status `ok` and `form_action`
`https://s3.example.com/bucket`. -/
theorem getSpeechUploadParams_formAction_witness :
    ∃ params, (getSpeechUploadParams scripted "sess456" (start [.ok paramsResponse])).1
        = .ret params none ∧
      params.Data.FormAction = "https://s3.example.com/bucket" ∧ params.Status = "ok" :=
  (getSpeechUploadParams_formAction scripted "sess456" (start [.ok paramsResponse])
    paramsResponse _ policyEnvelope rfl rfl rfl).2.1 "ok" policyMembers
    "https://s3.example.com/bucket" rfl (by decide) rfl

/-- C8, a counterexample: on the envelope
`{"status":5,"data":{"form_action":"https://s3.example.com/bucket"}}`, whose
`data.form_action` is a string, `getSpeechUploadParams` returns a type error on the status
and no policy. -/
theorem getSpeechUploadParams_rejects_numeric_status :
    (lastNamed DataField.all DataField.tag .FormAction
      (dataMembers numericStatusEnvelope)).bind Json.written
        = some "https://s3.example.com/bucket" ∧
    (getSpeechUploadParams scripted "sess456" (start [.ok numericStatusResponse])).1
      = .ret {} (some (.jsonType "number" "status")) :=
  ⟨rfl, rfl⟩

/-- What `notifyOtter` comes to once the CSRF token is fetched and the finalize request
is answered with a body that can be read. -/
theorem notifyOtter_of_body {σ : Type} (w : World σ) (sessionId : String)
    (response : speechUploadResponse) (n n1 n2 : Net σ) (csrfToken : String)
    (resp : Response) (body : Body)
    (hcsrf : getCSRFToken w n = (.ret csrfToken none, n1))
    (hdo : send w (finishRequest sessionId response csrfToken) n1 = (.ok resp, n2))
    (hbody : resp.Body = .ok body) :
    notifyOtter w sessionId response n
      = match notifyOtterResponse.Unmarshal body with
        | (_, some err) => (.panic err, n2)
        | (responseBody, none) => (.ret responseBody none, n2) := by
  unfold notifyOtter
  rw [hcsrf]
  simp only
  rw [hdo]
  simp only [getResponseBody, hbody]

/-- The field `OtID` after a finalize record is decoded, from the last member that goes
to it. -/
theorem decode_notify_otid (members : List (String × Json)) (otid : String)
    (hlast : lastNamed NotifyField.all NotifyField.tag .OtID members = some (.str otid)) :
    (decodeObject notifyOtterResponse.decodeMember members ({}, none)).1.OtID = otid :=
  decodeObject_last notifyOtterResponse.decodeMember NotifyField.all NotifyField.tag .OtID
    (fun r => r.OtID) (fun v => match v with | .str s => some s | _ => none)
    (fun r key v t hk ht => notifyMember_set r key v t hk ht)
    (fun r key v hk => notifyMember_keep r key v hk)
    members (.str otid) otid hlast rfl _ _

/-- C2: for every run of `UploadSpeech` in which all the steps succeed (the policy is
negotiated, the object store answers with a receipt, the CSRF token is fetched and the
finalize request is answered with a body that can be read), the URL returned is
`https://otter.ai/u/` followed by the `OtID` decoded from the finalize response; when that
response is a record whose `otid` is the string `otid`, it is `https://otter.ai/u/` followed
by `otid` as it stands. -/
theorem UploadSpeech_url_from_otid {σ : Type} (w : World σ) (sessionId : String)
    (audioFile : File) (n n1 n2 n3 n4 : Net σ) (params : speechUploadParams)
    (response : speechUploadResponse) (csrfToken : String) (resp : Response) (body : Body)
    (h1 : getSpeechUploadParams w sessionId n = (.ret params none, n1))
    (h2 : amazonBucketUpload w audioFile params n1 = (.ret response none, n2))
    (h3 : getCSRFToken w n2 = (.ret csrfToken none, n3))
    (h4 : send w (finishRequest sessionId response csrfToken) n3 = (.ok resp, n4))
    (h5 : resp.Body = .ok body) :
    (∀ responseBody, notifyOtterResponse.Unmarshal body = (responseBody, none) →
      UploadSpeech w sessionId audioFile n
        = (.ret ("https://otter.ai/u/" ++ responseBody.OtID) none, n4)) ∧
    (∀ members otid, body.json = .ok (.obj members) → notifyFits members = true →
      lastNamed NotifyField.all NotifyField.tag .OtID members = some (.str otid) →
      UploadSpeech w sessionId audioFile n
        = (.ret ("https://otter.ai/u/" ++ otid) none, n4)) := by
  have hnotify := notifyOtter_of_body w sessionId response n2 n3 n4 csrfToken resp body h3 h4 h5
  have hfirst : ∀ responseBody, notifyOtterResponse.Unmarshal body = (responseBody, none) →
      UploadSpeech w sessionId audioFile n
        = (.ret ("https://otter.ai/u/" ++ responseBody.OtID) none, n4) := by
    intro responseBody hdec
    rw [hdec] at hnotify
    unfold UploadSpeech
    rw [h1]
    simp only
    rw [h2]
    simp only
    rw [hnotify]
  refine ⟨hfirst, ?_⟩
  intro members otid hjson hfits hlast
  have hdec : notifyOtterResponse.Unmarshal body
      = ((decodeObject notifyOtterResponse.decodeMember members ({}, none)).1, none) := by
    simp only [notifyOtterResponse.Unmarshal, hjson]
    exact Prod.ext rfl (decode_notify_fits members hfits _ _)
  rw [hfirst _ hdec, decode_notify_otid members otid hlast]

/-- C2, on the scenario: the finalize response `{"status":"ok","otid":"xyz"}` gives the URL
`https://otter.ai/u/xyz`. -/
theorem UploadSpeech_url_from_otid_witness :
    (UploadSpeech scripted "sess456" audio
      (start [.ok paramsResponse, .ok (bucketResponse 200), .ok csrfResponse,
        .ok finishResponse])).1
      = .ret "https://otter.ai/u/xyz" none :=
  congrArg Prod.fst
    ((UploadSpeech_url_from_otid scripted "sess456" audio
      (start [.ok paramsResponse, .ok (bucketResponse 200), .ok csrfResponse,
        .ok finishResponse]) _ _ _ _ _ _ _ finishResponse _ rfl rfl rfl rfl rfl).2
      [("status", .str "ok"), ("otid", .str "xyz")] "xyz" rfl (by decide) rfl)

/-- The content the form has under the name of a field of the policy. -/
theorem createSpeechFormData_text {σ : Type} (w : World σ) (name : String)
    (data : List UInt8) (params : speechUploadParams) (n : Net σ) (f : DataField)
    (hf : f ≠ .FormAction) :
    ∃ boundary form,
      (createSpeechFormData w { Name := name, Data := .ok data } params n).1
        = .ret (boundary, form) none ∧
      form.valuesOf f.tag = [bytesOf (params.Data.text f)] := by
  refine ⟨_, _, createSpeechFormData_ok w name data params n, ?_⟩
  cases f <;> first | rfl | exact absurd rfl hf

/-- C5, as amended: for every upload-params response whose body is a JSON object, decoding
it with `parseSpeechUploadParams` and writing the form with `createSpeechFormData` gives,
under the name of each of the seven string fields of the policy, the string of the last
`data` member of that name, byte for byte; under `success_action_status` it gives the text
`fmt.Sprint` prints for the `float64` read from the number of that member, which is the
number as the document writes it when that is the decimal numeral of a whole number below
1000000. -/
theorem roundtrip_field_text {σ : Type} (w : World σ) (name : String) (data : List UInt8)
    (n : Net σ) (body : Body) (top : List (String × Json))
    (hjson : body.json = .ok (.obj top)) :
    (∀ f s, f ≠ .FormAction → f ≠ .SuccessActionStatus →
      lastNamed DataField.all DataField.tag f (dataMembers top) = some (.str s) →
      ∃ boundary form,
        (createSpeechFormData w { Name := name, Data := .ok data }
          (parseSpeechUploadParams body).1 n).1 = .ret (boundary, form) none ∧
        form.valuesOf f.tag = [bytesOf s]) ∧
    (∀ lit x,
      lastNamed DataField.all DataField.tag .SuccessActionStatus (dataMembers top)
        = some (.num lit (some x)) →
      ∃ boundary form,
        (createSpeechFormData w { Name := name, Data := .ok data }
          (parseSpeechUploadParams body).1 n).1 = .ret (boundary, form) none ∧
        form.valuesOf "success_action_status" = [bytesOf x.Sprint]) ∧
    (∀ status, status < 1000000 →
      lastNamed DataField.all DataField.tag .SuccessActionStatus (dataMembers top)
        = some (.num (toString status) (some (Float64.ofNat status))) →
      ∃ boundary form,
        (createSpeechFormData w { Name := name, Data := .ok data }
          (parseSpeechUploadParams body).1 n).1 = .ret (boundary, form) none ∧
        form.valuesOf "success_action_status" = [bytesOf (toString status)]) := by
  have htext : ∀ f v t, lastNamed DataField.all DataField.tag f (dataMembers top) = some v →
      f.textOf v = some t → (parseSpeechUploadParams body).1.Data.text f = t := by
    intro f v t hlast ht
    rw [parseSpeechUploadParams_eq]
    simp only [speechUploadParams.Unmarshal, hjson]
    exact decode_envelope_text top f v t hlast ht
  refine ⟨?_, ?_, ?_⟩
  · intro f s hf hs hlast
    have h := createSpeechFormData_text w name data (parseSpeechUploadParams body).1 n f hf
    rw [htext f (.str s) s hlast (by cases f <;> first | rfl | exact absurd rfl hs)] at h
    exact h
  · intro lit x hlast
    have h := createSpeechFormData_text w name data (parseSpeechUploadParams body).1 n
      .SuccessActionStatus (by decide)
    rw [htext .SuccessActionStatus _ x.Sprint hlast rfl] at h
    exact h
  · intro status hlt hlast
    have h := createSpeechFormData_text w name data (parseSpeechUploadParams body).1 n
      .SuccessActionStatus (by decide)
    rw [htext .SuccessActionStatus _ (Float64.ofNat status).Sprint hlast rfl,
      Sprint_ofNat status hlt] at h
    exact h

/-- C5 as amended, on the scenario: the `success_action_status` of the envelope, written
`201`, is the content `201` (the bytes 50, 48, 49) of the part of that name, and the key
`k1` (the bytes 107, 49) is the content of the part `key`. -/
theorem roundtrip_field_text_witness :
    (∃ boundary form,
      (createSpeechFormData scripted { Name := "talk.mp3", Data := .ok [73, 68, 51] }
        (parseSpeechUploadParams (jsonBody "" (.obj policyEnvelope))).1 (start [])).1
          = .ret (boundary, form) none ∧
      form.valuesOf "success_action_status" = [[50, 48, 49]]) ∧
    (∃ boundary form,
      (createSpeechFormData scripted { Name := "talk.mp3", Data := .ok [73, 68, 51] }
        (parseSpeechUploadParams (jsonBody "" (.obj policyEnvelope))).1 (start [])).1
          = .ret (boundary, form) none ∧
      form.valuesOf "key" = [[107, 49]]) :=
  ⟨(roundtrip_field_text scripted "talk.mp3" [73, 68, 51] (start [])
      (jsonBody "" (.obj policyEnvelope)) policyEnvelope rfl).2.2 201 (by decide) rfl,
   (roundtrip_field_text scripted "talk.mp3" [73, 68, 51] (start [])
      (jsonBody "" (.obj policyEnvelope)) policyEnvelope rfl).1 .Key "k1" (by decide)
      (by decide) rfl⟩

/-- C5, a counterexample: the envelope
`{"status":"ok","data":{"key":"k1","success_action_status":1000000}}` is accepted, its
`success_action_status` is written `1000000`, and the form carries `1e+06` under that
name; and with `9007199254740993` in that place, a number no `float64` holds, the
envelope is accepted and the form carries `9.007199254740992e+15`, another number. -/
theorem roundtrip_alters_success_action_status :
    (parseSpeechUploadParams millionBody).2 = none ∧
    (lastNamed DataField.all DataField.tag .SuccessActionStatus
      (dataMembers millionEnvelope)).bind Json.written = some "1000000" ∧
    (createSpeechFormData scripted audio (parseSpeechUploadParams millionBody).1
      (start [])).1.val?.map (fun r => r.2.valuesOf "success_action_status")
        = some [bytesOf "1e+06"] ∧
    bytesOf "1e+06" ≠ bytesOf "1000000" ∧
    (parseSpeechUploadParams inexactBody).2 = none ∧
    (lastNamed DataField.all DataField.tag .SuccessActionStatus
      (dataMembers inexactEnvelope)).bind Json.written = some "9007199254740993" ∧
    (createSpeechFormData scripted audio (parseSpeechUploadParams inexactBody).1
      (start [])).1.val?.map (fun r => r.2.valuesOf "success_action_status")
        = some [bytesOf "9.007199254740992e+15"] := by
  refine ⟨rfl, rfl, rfl, by decide, rfl, rfl, rfl⟩

/-- The function `notifyOtter` never executes `return _, err` with an error. -/
theorem notifyOtter_no_error {σ : Type} (w : World σ) (sessionId : String)
    (response : speechUploadResponse) (n : Net σ) (val : notifyOtterResponse)
    (err : GoError) : (notifyOtter w sessionId response n).1 ≠ .ret val (some err) := by
  unfold notifyOtter
  repeat' split
  all_goals simp

/-- The record a finalize object decodes to holds, in every field, the value of the last
member that goes to the field when that value is of the kind of the field, and the zero of
the field when no member goes to it. -/
theorem decode_notify_value (members : List (String × Json)) (f : NotifyField) :
    (lastNamed NotifyField.all NotifyField.tag f members = none →
      (decodeObject notifyOtterResponse.decodeMember members ({}, none)).1.value f = f.zero) ∧
    (∀ v x, lastNamed NotifyField.all NotifyField.tag f members = some v →
      f.valueOf v = some x →
      (decodeObject notifyOtterResponse.decodeMember members ({}, none)).1.value f = x) := by
  refine ⟨?_, ?_⟩
  · intro hlast
    rw [decodeObject_keep notifyOtterResponse.decodeMember NotifyField.all NotifyField.tag f
      (fun r => r.value f) (fun r key v hk => notifyMember_value_keep r key v f hk)
      members hlast]
    cases f <;> rfl
  · intro v x hlast hx
    exact decodeObject_last notifyOtterResponse.decodeMember NotifyField.all NotifyField.tag f
      (fun r => r.value f) f.valueOf
      (fun r key v x hk hx => notifyMember_value_set r key v f x hk hx)
      (fun r key v hk => notifyMember_value_keep r key v f hk)
      members v x hlast hx _ _

/-- C10, as amended: `notifyOtter` never returns an error.  Once the CSRF token is fetched
and the finalize request is answered with a body that can be read, it panics with the error
of the decoder when the body is malformed JSON, and with a type error when the body is a
JSON object with a member that is not of the kind of its field (or is an array, a string,
a number or a boolean); when the body is a JSON object whose members are of the kind of
their fields, it returns, without error, a record in which every field has the value of
the last member of its name, and the zero value when there is no such member: a record
without `otid` has an empty `OtID`. -/
theorem notifyOtter_panics_or_returns {σ : Type} (w : World σ) (sessionId : String)
    (response : speechUploadResponse) (n n1 n2 : Net σ) (csrfToken : String)
    (resp : Response) (body : Body)
    (hcsrf : getCSRFToken w n = (.ret csrfToken none, n1))
    (hdo : send w (finishRequest sessionId response csrfToken) n1 = (.ok resp, n2))
    (hbody : resp.Body = .ok body) :
    (∀ val err, (notifyOtter w sessionId response n).1 ≠ .ret val (some err)) ∧
    (∀ err, body.json = .error err →
      notifyOtter w sessionId response n = (.panic err, n2)) ∧
    (∀ members, body.json = .ok (.obj members) → notifyFits members = false →
      ∃ value path,
        notifyOtter w sessionId response n = (.panic (.jsonType value path), n2)) ∧
    (∀ v, body.json = .ok v → (∀ members, v ≠ .obj members) → v ≠ .null →
      notifyOtter w sessionId response n = (.panic (.jsonType v.kind ""), n2)) ∧
    (body.json = .ok .null → notifyOtter w sessionId response n = (.ret {} none, n2)) ∧
    (∀ members, body.json = .ok (.obj members) → notifyFits members = true →
      ∃ val, notifyOtter w sessionId response n = (.ret val none, n2) ∧
        (∀ f, lastNamed NotifyField.all NotifyField.tag f members = none →
          val.value f = f.zero) ∧
        (∀ f v x, lastNamed NotifyField.all NotifyField.tag f members = some v →
          f.valueOf v = some x → val.value f = x) ∧
        (lastNamed NotifyField.all NotifyField.tag .OtID members = none → val.OtID = "")) := by
  have hnotify := notifyOtter_of_body w sessionId response n n1 n2 csrfToken resp body
    hcsrf hdo hbody
  refine ⟨fun val err => notifyOtter_no_error w sessionId response n val err,
    ?_, ?_, ?_, ?_, ?_⟩
  · intro err hjson
    rw [hnotify]
    simp only [notifyOtterResponse.Unmarshal, hjson]
  · intro members hjson hfits
    obtain ⟨value, path, hk⟩ := decode_notify_misfit members hfits {}
    refine ⟨value, path, ?_⟩
    rw [hnotify]
    simp only [notifyOtterResponse.Unmarshal, hjson]
    rw [show decodeObject notifyOtterResponse.decodeMember members ({}, none)
      = ((decodeObject notifyOtterResponse.decodeMember members ({}, none)).1,
          some (.jsonType value path)) from Prod.ext rfl hk]
  · intro v hjson hobj hnull
    rw [hnotify]
    cases v with
    | obj members => exact absurd rfl (hobj members)
    | null => exact absurd rfl hnull
    | _ => simp only [notifyOtterResponse.Unmarshal, hjson, Json.kind]
  · intro hjson
    rw [hnotify]
    simp only [notifyOtterResponse.Unmarshal, hjson]
  · intro members hjson hfits
    refine ⟨(decodeObject notifyOtterResponse.decodeMember members ({}, none)).1, ?_,
      fun f => (decode_notify_value members f).1,
      fun f => (decode_notify_value members f).2, ?_⟩
    · rw [hnotify]
      simp only [notifyOtterResponse.Unmarshal, hjson]
      rw [show decodeObject notifyOtterResponse.decodeMember members ({}, none)
        = ((decodeObject notifyOtterResponse.decodeMember members ({}, none)).1, none) from
          Prod.ext rfl (decode_notify_fits members hfits _ _)]
    · intro hlast
      have h := (decode_notify_value members .OtID).1 hlast
      simpa [notifyOtterResponse.value, NotifyField.zero] using h

/-- C10 as amended, on two scenarios: the finalize response `{"status":"ok"}` gives a record
with the status `ok` and an empty `OtID`; the finalize response `{"status":"ok","otid":7}`
gives a panic with a type error. -/
theorem notifyOtter_panics_or_returns_witness :
    (∃ val,
      notifyOtter scripted "sess456" receipt (start [.ok csrfResponse, .ok finishWithoutOtid])
        = (.ret val none,
           { state := [], sent := [csrfRequest, finishRequest "sess456" receipt "abc123"] }) ∧
      val.Status = "ok" ∧ val.OtID = "") ∧
    (∃ value path,
      notifyOtter scripted "sess456" receipt (start [.ok csrfResponse, .ok finishNumericOtid])
        = (.panic (.jsonType value path),
           { state := [], sent := [csrfRequest, finishRequest "sess456" receipt "abc123"] })) := by
  refine ⟨?_, ?_⟩
  · obtain ⟨val, hval, _, hset, hotid⟩ :=
      (notifyOtter_panics_or_returns scripted "sess456" receipt
        (start [.ok csrfResponse, .ok finishWithoutOtid]) _ _ "abc123" finishWithoutOtid _
        rfl rfl rfl).2.2.2.2.2 [("status", .str "ok")] rfl (by decide)
    refine ⟨val, hval, ?_, hotid rfl⟩
    have h := hset .Status (.str "ok") (.text "ok") rfl rfl
    simpa [notifyOtterResponse.value] using h
  · exact (notifyOtter_panics_or_returns scripted "sess456" receipt
      (start [.ok csrfResponse, .ok finishNumericOtid]) _ _ "abc123" finishNumericOtid _
      rfl rfl rfl).2.2.1 _ rfl (by decide)

/-- C10, a counterexample: on the finalize response `{"status":"ok"}`, which has no `otid`,
`notifyOtter` returns a record and no error, and `UploadSpeech` returns the URL
`https://otter.ai/u/`; on a finalize response that is not JSON, `notifyOtter` panics
instead of returning an error. -/
theorem notifyOtter_accepts_record_without_otid :
    (notifyOtter scripted "sess456" receipt
      (start [.ok csrfResponse, .ok finishWithoutOtid])).1
        = .ret { Status := "ok", SpeechID := "", UploadID := Float64.zero, OtID := "" } none ∧
    (UploadSpeech scripted "sess456" audio
      (start [.ok paramsResponse, .ok (bucketResponse 200), .ok csrfResponse,
        .ok finishWithoutOtid])).1 = .ret "https://otter.ai/u/" none ∧
    (notifyOtter scripted "sess456" receipt
      (start [.ok csrfResponse, .ok finishMalformed])).1
        = .panic (.lib "encoding/json" "invalid character") :=
  ⟨rfl, rfl, rfl⟩

/-- What `amazonBucketUpload` comes to once the form is written, the URL of the policy
is accepted and the upload request is answered. -/
theorem amazonBucketUpload_of_response {σ : Type} (w : World σ) (audioFile : File)
    (params : speechUploadParams) (n n1 n2 : Net σ) (boundary : String) (data : Form)
    (resp : Response)
    (hform : createSpeechFormData w audioFile params n = (.ret (boundary, data) none, n1))
    (hurl : w.NewRequestErr params.Data.FormAction = none)
    (hdo : send w (bucketRequest params boundary data) n1 = (.ok resp, n2)) :
    amazonBucketUpload w audioFile params n
      = match resp.Body with
        | .error err => (.ret {} (some err), n2)
        | .ok body =>
          match speechUploadResponse.Unmarshal body with
          | (_, some err) => (.ret {} (some err), n2)
          | (spchResponse, none) => (.ret spchResponse none, n2) := by
  unfold amazonBucketUpload
  rw [hform]
  simp only [hurl]
  rw [hdo]
  simp only [getResponseBody, parseSpeechUploadResponse_eq]
  cases resp.Body <;> rfl

/-- The decoding of a `PostResponse` document with one child for each field. -/
theorem Unmarshal_receipt (body : Body) (location bucket key etag : String)
    (htokens : body.xml.tokens = receiptTokens location bucket key etag) :
    speechUploadResponse.Unmarshal body
      = ({ XMLName := ("", "PostResponse"), Location := location, Bucket := bucket,
           Key := key, ETag := etag }, none) := by
  unfold speechUploadResponse.Unmarshal
  rw [htokens]
  simp [receiptTokens, findStart, xmlWalk, XmlField.named, XmlField.tag,
    speechUploadResponse.set]

/-- The decoding of a body whose first element, the root, is `PostResponse`: it fails with
the error the tokens stop on exactly when the tokens do not close the root. -/
theorem Unmarshal_root (body : Body) (space : String) (rest : List XmlToken)
    (hstart : findStart body.xml.tokens = some ((space, "PostResponse"), rest)) :
    (closes 0 rest = false → ∃ val,
      speechUploadResponse.Unmarshal body = (val, some body.xml.stop)) ∧
    (closes 0 rest = true → ∃ val, speechUploadResponse.Unmarshal body = (val, none)) := by
  have hwalk := xmlWalk_closes rest .root { XMLName := (space, "PostResponse") }
  simp only [XmlMode.depth] at hwalk
  refine ⟨?_, ?_⟩
  · intro hclose
    rw [hclose] at hwalk
    refine ⟨(xmlWalk .root { XMLName := (space, "PostResponse") } rest).1, ?_⟩
    unfold speechUploadResponse.Unmarshal
    rw [hstart]
    simp only [ne_eq, not_true_eq_false, if_false]
    rw [show xmlWalk .root { XMLName := (space, "PostResponse") } rest
      = ((xmlWalk .root { XMLName := (space, "PostResponse") } rest).1, false) from
        Prod.ext rfl hwalk]
  · intro hclose
    rw [hclose] at hwalk
    refine ⟨(xmlWalk .root { XMLName := (space, "PostResponse") } rest).1, ?_⟩
    unfold speechUploadResponse.Unmarshal
    rw [hstart]
    simp only [ne_eq, not_true_eq_false, if_false]
    rw [show xmlWalk .root { XMLName := (space, "PostResponse") } rest
      = ((xmlWalk .root { XMLName := (space, "PostResponse") } rest).1, true) from
        Prod.ext rfl hwalk]

/-- C9, as amended: `amazonBucketUpload` does not look at the status code.  Once the form
is written and the upload request is answered, with any status code, it returns the error
of the read when the body cannot be read; the error the XML tokens stop on when the body
has no element at all or does not close its root element; an `xml.UnmarshalError` when the
root element is not `PostResponse`; and otherwise, when the root is a closed `PostResponse`,
a receipt without error: a `PostResponse` document with a child for each field gives the
receipt of these four texts. -/
theorem amazonBucketUpload_ignores_status {σ : Type} (w : World σ) (audioFile : File)
    (params : speechUploadParams) (n n1 n2 : Net σ) (boundary : String) (data : Form)
    (code : Nat) (cookies : List Cookie) (read : Except GoError Body)
    (hform : createSpeechFormData w audioFile params n = (.ret (boundary, data) none, n1))
    (hurl : w.NewRequestErr params.Data.FormAction = none)
    (hdo : send w (bucketRequest params boundary data) n1
      = (.ok { StatusCode := code, Cookies := cookies, Body := read }, n2)) :
    (∀ err, read = .error err →
      amazonBucketUpload w audioFile params n = (.ret {} (some err), n2)) ∧
    (∀ body, read = .ok body → findStart body.xml.tokens = none →
      amazonBucketUpload w audioFile params n = (.ret {} (some body.xml.stop), n2)) ∧
    (∀ body space name rest, read = .ok body →
      findStart body.xml.tokens = some ((space, name), rest) → name ≠ "PostResponse" →
      amazonBucketUpload w audioFile params n
        = (.ret {} (some (.xmlUnmarshal
            ("expected element type <PostResponse> but have <" ++ name ++ ">"))), n2)) ∧
    (∀ body space rest, read = .ok body →
      findStart body.xml.tokens = some ((space, "PostResponse"), rest) →
      closes 0 rest = false →
      amazonBucketUpload w audioFile params n = (.ret {} (some body.xml.stop), n2)) ∧
    (∀ body space rest, read = .ok body →
      findStart body.xml.tokens = some ((space, "PostResponse"), rest) →
      closes 0 rest = true →
      ∃ val, amazonBucketUpload w audioFile params n = (.ret val none, n2)) ∧
    (∀ body location bucket key etag, read = .ok body →
      body.xml.tokens = receiptTokens location bucket key etag →
      amazonBucketUpload w audioFile params n
        = (.ret { XMLName := ("", "PostResponse"), Location := location, Bucket := bucket,
                  Key := key, ETag := etag } none, n2)) := by
  have h := amazonBucketUpload_of_response w audioFile params n n1 n2 boundary data _
    hform hurl hdo
  simp only at h
  refine ⟨?_, ?_, ?_, ?_, ?_, ?_⟩
  · intro err hread
    rw [h, hread]
  · intro body hread hnone
    rw [h, hread]
    simp only [speechUploadResponse.Unmarshal, hnone]
  · intro body space name rest hread hstart hname
    rw [h, hread]
    simp only [speechUploadResponse.Unmarshal, hstart, ne_eq, hname, not_false_eq_true,
      if_true]
  · intro body space rest hread hstart hclose
    obtain ⟨val, hval⟩ := (Unmarshal_root body space rest hstart).1 hclose
    rw [h, hread]
    simp only [hval]
  · intro body space rest hread hstart hclose
    obtain ⟨val, hval⟩ := (Unmarshal_root body space rest hstart).2 hclose
    refine ⟨val, ?_⟩
    rw [h, hread]
    simp only [hval]
  · intro body location bucket key etag hread htokens
    rw [h, hread]
    simp only [Unmarshal_receipt body location bucket key etag htokens]

/-- C9 as amended, on three scenarios: an answer with status 201 and a well-formed receipt
gives the receipt; an answer with status 403 and the body
`<Error><Code>AccessDenied</Code></Error>` gives an `xml.UnmarshalError`; an answer whose
body breaks off inside the root gives the error the tokens stop on. -/
theorem amazonBucketUpload_ignores_status_witness :
    (amazonBucketUpload scripted audio policyParams (start [.ok (bucketResponse 201)])).1
      = .ret receipt none ∧
    (amazonBucketUpload scripted audio policyParams (start [.ok (bucketError 403)])).1
      = .ret {} (some (.xmlUnmarshal "expected element type <PostResponse> but have <Error>")) ∧
    (amazonBucketUpload scripted audio policyParams (start [.ok bucketTruncated])).1
      = .ret {} (some (.lib "encoding/xml" "unexpected EOF")) :=
  ⟨congrArg Prod.fst
    ((amazonBucketUpload_ignores_status scripted audio policyParams
      (start [.ok (bucketResponse 201)]) _ _ _ _ 201 [] _ rfl rfl rfl).2.2.2.2.2
      _ "loc" "bkt" "k1" "tag" rfl rfl),
   congrArg Prod.fst
    ((amazonBucketUpload_ignores_status scripted audio policyParams
      (start [.ok (bucketError 403)]) _ _ _ _ 403 [] _ rfl rfl rfl).2.2.1
      _ "" "Error" _ rfl rfl (by decide)),
   congrArg Prod.fst
    ((amazonBucketUpload_ignores_status scripted audio policyParams
      (start [.ok bucketTruncated]) _ _ _ _ 200 [] _ rfl rfl rfl).2.2.2.1
      _ "" _ rfl rfl rfl)⟩

/-- C9, a counterexample: the object store answers with status 403 and a well-formed
`PostResponse` body; `amazonBucketUpload` returns the receipt and no error, and
`UploadSpeech` goes on to return a transcript URL. -/
theorem amazonBucketUpload_accepts_status_403 :
    (bucketResponse 403).StatusCode = 403 ∧
    (amazonBucketUpload scripted audio policyParams (start [.ok (bucketResponse 403)])).1
      = .ret receipt none ∧
    (UploadSpeech scripted "sess456" audio
      (start [.ok paramsResponse, .ok (bucketResponse 403), .ok csrfResponse,
        .ok finishResponse])).1 = .ret "https://otter.ai/u/xyz" none :=
  ⟨rfl, rfl, rfl⟩

/-- The function `getSpeechUploadParams` sends one request, whatever comes of it. -/
theorem getSpeechUploadParams_sent {σ : Type} (w : World σ) (sessionId : String)
    (n : Net σ) :
    (getSpeechUploadParams w sessionId n).2.sent = n.sent ++ [paramsRequest sessionId] := by
  have h : (getSpeechUploadParams w sessionId n).2 = (send w (paramsRequest sessionId) n).2 := by
    unfold getSpeechUploadParams
    rcases send w (paramsRequest sessionId) n with ⟨r, n1⟩
    cases r with
    | error e => rfl
    | ok resp =>
      simp only
      split
      · rfl
      · split <;> rfl
  rw [h]
  rfl

end otterapi

namespace transcribe

open otterapi

/-- C7, as amended: `UploadSpeech` runs the negotiation, the upload and the notification in
that order, and `main` runs `Login` before `UploadSpeech`.  When a step fails, nothing of
a later step is attempted (the run ends in the state the failing step left, and a failed
negotiation has sent its one request only), no transcript URL comes out, and the error of
the step is passed on unchanged: an error the step returned is returned by `UploadSpeech`
with an empty URL, a panic of the step is the panic of `UploadSpeech`, and `main` panics
with the error `Login` or `UploadSpeech` returned or panicked with.  When no step fails the
URL is `https://otter.ai/u/` followed by the `OtID` of the notification. -/
theorem UploadSpeech_fail_fast {σ : Type} (w : World σ) (sessionId : String)
    (audioFile : File) (n : Net σ) :
    (∀ e n1, getSpeechUploadParams w sessionId n = (.panic e, n1) →
      UploadSpeech w sessionId audioFile n = (.panic e, n1) ∧
      n1.sent = n.sent ++ [paramsRequest sessionId]) ∧
    (∀ params err n1, getSpeechUploadParams w sessionId n = (.ret params (some err), n1) →
      UploadSpeech w sessionId audioFile n = (.ret "" (some err), n1) ∧
      n1.sent = n.sent ++ [paramsRequest sessionId]) ∧
    (∀ params n1, getSpeechUploadParams w sessionId n = (.ret params none, n1) →
      (∀ e n2, amazonBucketUpload w audioFile params n1 = (.panic e, n2) →
        UploadSpeech w sessionId audioFile n = (.panic e, n2)) ∧
      (∀ response err n2,
        amazonBucketUpload w audioFile params n1 = (.ret response (some err), n2) →
        UploadSpeech w sessionId audioFile n = (.ret "" (some err), n2)) ∧
      (∀ response n2, amazonBucketUpload w audioFile params n1 = (.ret response none, n2) →
        (∀ e n3, notifyOtter w sessionId response n2 = (.panic e, n3) →
          UploadSpeech w sessionId audioFile n = (.panic e, n3)) ∧
        (∀ responseBody n3,
          notifyOtter w sessionId response n2 = (.ret responseBody none, n3) →
          UploadSpeech w sessionId audioFile n
            = (.ret ("https://otter.ai/u/" ++ responseBody.OtID) none, n3)))) ∧
    (∀ Username Password shouldWriteConfig writeConfig NArg osOpen,
      (Username == "" || Password == "") = false →
      (∀ e n1, Login w Username Password n = (.panic e, n1) →
        main w Username Password shouldWriteConfig writeConfig NArg osOpen n
          = (.panic e, n1)) ∧
      (∀ val err n1, Login w Username Password n = (.ret val (some err), n1) →
        main w Username Password shouldWriteConfig writeConfig NArg osOpen n
          = (.panic err, n1)) ∧
      (∀ sessionID n1 file, Login w Username Password n = (.ret sessionID none, n1) →
        (if shouldWriteConfig then writeConfig else none) = none → NArg = 1 →
        osOpen = .ok file →
        (∀ e n2, UploadSpeech w sessionID file n1 = (.panic e, n2) →
          main w Username Password shouldWriteConfig writeConfig NArg osOpen n
            = (.panic e, n2)) ∧
        (∀ val err n2, UploadSpeech w sessionID file n1 = (.ret val (some err), n2) →
          main w Username Password shouldWriteConfig writeConfig NArg osOpen n
            = (.panic err, n2)) ∧
        (∀ transcriptUrl n2, UploadSpeech w sessionID file n1 = (.ret transcriptUrl none, n2) →
          main w Username Password shouldWriteConfig writeConfig NArg osOpen n
            = (.printed transcriptUrl, n2)))) := by
  have hsent := getSpeechUploadParams_sent w sessionId n
  refine ⟨?_, ?_, ?_, ?_⟩
  · intro e n1 h
    rw [h] at hsent
    exact ⟨by unfold UploadSpeech; rw [h], hsent⟩
  · intro params err n1 h
    rw [h] at hsent
    exact ⟨by unfold UploadSpeech; rw [h], hsent⟩
  · intro params n1 h
    refine ⟨?_, ?_, ?_⟩
    · intro e n2 h2
      unfold UploadSpeech
      rw [h]
      simp only
      rw [h2]
    · intro response err n2 h2
      unfold UploadSpeech
      rw [h]
      simp only
      rw [h2]
    · intro response n2 h2
      refine ⟨?_, ?_⟩
      · intro e n3 h3
        unfold UploadSpeech
        rw [h]
        simp only
        rw [h2]
        simp only
        rw [h3]
      · intro responseBody n3 h3
        unfold UploadSpeech
        rw [h]
        simp only
        rw [h2]
        simp only
        rw [h3]
  · intro Username Password shouldWriteConfig writeConfig NArg osOpen hcred
    refine ⟨?_, ?_, ?_⟩
    · intro e n1 h
      unfold main
      rw [hcred, h]
      simp
    · intro val err n1 h
      unfold main
      rw [hcred, h]
      simp
    · intro sessionID n1 file h hw hn hf
      refine ⟨?_, ?_, ?_⟩
      · intro e n2 h2
        unfold main
        rw [hcred, h]
        simp only [hw, hn, hf, h2]
        simp
      · intro val err n2 h2
        unfold main
        rw [hcred, h]
        simp only [hw, hn, hf, h2]
        simp
      · intro transcriptUrl n2 h2
        unfold main
        rw [hcred, h]
        simp only [hw, hn, hf, h2]
        simp

/-- C7 as amended, on a scenario: the body of the upload-params response cannot be read;
`UploadSpeech` returns that error and an empty URL after its one request. -/
theorem UploadSpeech_fail_fast_witness :
    UploadSpeech scripted "sess456" audio (start [.ok unreadable, .ok (bucketResponse 200)])
      = (.ret "" (some (.lib "io" "unexpected EOF")),
         { state := [.ok (bucketResponse 200)], sent := [paramsRequest "sess456"] }) :=
  ((UploadSpeech_fail_fast scripted "sess456" audio
    (start [.ok unreadable, .ok (bucketResponse 200)])).2.1
    {} (.lib "io" "unexpected EOF")
    { state := [.ok (bucketResponse 200)], sent := [paramsRequest "sess456"] } rfl).1

/-- C7, a counterexample: the transport fails on the request for the upload parameters.
`UploadSpeech` returns nothing, neither that error nor another: it panics.  And when the
login response has no `sessionid` cookie, `main` does not return the error of `Login`: it
panics with it. -/
theorem UploadSpeech_panics_on_transport_error :
    (UploadSpeech scripted "sess456" audio (start [.error connectionReset])).1
      = .panic connectionReset ∧
    (UploadSpeech scripted "sess456" audio (start [.error connectionReset])).1
      ≠ .ret "" (some connectionReset) ∧
    (main scripted "alice" "secret" false none 1 (.ok audio)
      (start [.ok csrfResponse, .ok csrfResponse])).1
      = .panic (.noSessionId [{ Name := "csrftoken", Value := "abc123" }]) := by
  refine ⟨rfl, by decide, rfl⟩

end transcribe
